import Mathlib

/-!
Shallow embedding of the blueprint archive ingestion pipeline of
`manager_rest/resources.py` (class `BlueprintsUpload`, plus the archive
retrieval probe of `BlueprintsIdArchive`).

The filesystem is modelled as an explicit value: a list of directory paths
and a list of (file path, content) pairs, each path a list of components.
Every pipeline function is translated statement-by-statement from the
Python source; external collaborators (URL fetch, `archive_util`
unpacking, the DSL parser, `zipfile`, the generated temp names) are inputs
collected in an `Env` record, mirroring their nondeterminism.

Each effectful function returns, besides its `Except` result, the list of
filesystem snapshots after each primitive mutation, in order.  The final
filesystem of a call is the last snapshot (or the input filesystem when no
mutation happened); intermediate snapshots are the observable points that
the temporal claims quantify over.
-/

/-- Path components that are dropped or resolved by the OS when a path is
looked up: `normPath` resolves `.`, empty components and `..` the way the
OS does for `os.path.isfile` and friends. -/
def normPath (p : List String) : List String :=
  p.foldl
    (fun acc c =>
      if c = "" || c = "." then acc
      else if c = ".." then acc.dropLast
      else acc ++ [c]) []

/-- Test that `p` lies at or below `base` (both already normalized). -/
def underPath (base p : List String) : Bool :=
  p.take base.length == base

/-- All nonempty prefixes of a path, shortest first; `os.makedirs` creates
exactly the missing ones. -/
def prefixesOf (p : List String) : List (List String) :=
  (List.range p.length).map (fun i => p.take (i + 1))

/-- A filesystem: directory paths plus files with their byte content.
Paths are stored in normalized form by every constructor below. -/
structure FS where
  dirs : List (List String)
  files : List (List String × String)
deriving DecidableEq, Repr

def FS.isDir (fs : FS) (p : List String) : Bool :=
  fs.dirs.contains (normPath p)

def FS.isFile (fs : FS) (p : List String) : Bool :=
  fs.files.any (fun e => e.1 == normPath p)

def FS.pathExists (fs : FS) (p : List String) : Bool :=
  fs.isDir p || fs.isFile p

/-- Model of `open(p, 'w'); f.write(content)`. -/
def FS.writeFile (fs : FS) (p : List String) (content : String) : FS :=
  ⟨fs.dirs, (normPath p, content) :: fs.files.filter (fun e => e.1 != normPath p)⟩

/-- Model of `os.remove(p)`. -/
def FS.removeFile (fs : FS) (p : List String) : FS :=
  ⟨fs.dirs, fs.files.filter (fun e => e.1 != normPath p)⟩

/-- Model of `os.makedirs(p)`: create every missing ancestor and `p` itself. -/
def FS.makedirs (fs : FS) (p : List String) : FS :=
  ⟨fs.dirs ++ (prefixesOf (normPath p)).filter (fun q => !(fs.dirs.contains q)),
   fs.files⟩

/-- Model of `shutil.rmtree(p)`: delete the whole subtree rooted at `p`. -/
def FS.rmtree (fs : FS) (p : List String) : FS :=
  ⟨fs.dirs.filter (fun q => !(underPath (normPath p) q)),
   fs.files.filter (fun e => !(underPath (normPath p) e.1))⟩

def movePath (src dst p : List String) : List String :=
  if underPath src p then dst ++ p.drop src.length else p

/-- Model of `shutil.move(src, dst)` in the rename case (`dst` does not
exist yet): the subtree rooted at `src` is re-rooted at `dst`.  Call sites
where Python moves *into* an existing directory pass the full destination
path explicitly, as `shutil.move` computes it. -/
def FS.move (fs : FS) (src dst : List String) : FS :=
  ⟨fs.dirs.map (movePath (normPath src) (normPath dst)),
   fs.files.map (fun e => (movePath (normPath src) (normPath dst) e.1, e.2))⟩

/-- Model of `os.listdir(p)`: the distinct names directly below `p`,
derived from every stored path that descends below `p`. -/
def FS.listdir (fs : FS) (p : List String) : List String :=
  ((fs.dirs ++ fs.files.map (fun e => e.1)).filterMap
    (fun q =>
      if underPath (normPath p) q && decide ((normPath p).length < q.length)
      then q.get? (normPath p).length else none)).dedup

/-- One entry of an unpacked archive: a path relative to the unpack root,
and whether it is a directory or a file with content. -/
inductive EntryKind where
  | dir : EntryKind
  | file : String → EntryKind
deriving DecidableEq, Repr

/-- Materialize one unpacked entry below `base`, creating the parent
directories the way `archive_util.unpack_archive` does. -/
def FS.addEntry (fs : FS) (base : List String) (e : List String × EntryKind) : FS :=
  match e.2 with
  | .dir => fs.makedirs (base ++ e.1)
  | .file c => (fs.makedirs (base ++ e.1.dropLast)).writeFile (base ++ e.1) c

def FS.addEntries (fs : FS) (base : List String) (es : List (List String × EntryKind)) : FS :=
  es.foldl (fun f e => f.addEntry base e) fs

/-- The error classes raised by the pipeline, one constructor per Python
exception class that can escape `BlueprintsUpload`. -/
inductive Err where
  | badParameters : String → Err
  | paramUrlNotFound : String → Err
  | invalidBlueprint : String → Err
  | runtimeError : String → Err
  | ioError : String → Err
deriving DecidableEq, Repr

/-- The externally observable error kind: the exception class name carried
by the structured error response. -/
def Err.kind : Err → String
  | .badParameters _ => "bad_parameters_error"
  | .paramUrlNotFound _ => "param_url_not_found_error"
  | .invalidBlueprint _ => "invalid_blueprint_error"
  | .runtimeError _ => "runtime_error"
  | .ioError _ => "io_error"

/-- Outcome of `urlopen` on the caller-supplied URL. -/
inductive UrlResult where
  | ok : String → UrlResult
  | urlError : UrlResult
  | malformed : UrlResult
deriving DecidableEq, Repr

/-- External collaborators and generated names consumed by one ingestion:
the `tempfile.mktemp` name under the store root, the `tempfile.mkdtemp`
name under the OS temp root, the `uuid.uuid4` suffix, the result of
`urlopen`, the result of `archive_util.unpack_archive` (`.error` models
`UnrecognizedFormat`), the result of `publish_blueprint` (`.error` models
`DslParseException` with its diagnostic, `.ok` carries `blueprint.id`),
whether `zipfile` succeeds for a given plugin directory, and the archive
type detected by `archiving.get_archive_type`. -/
structure Env where
  tempName : String
  tempdirName : String
  uuid : String
  fetch : UrlResult
  unpackResult : Except Unit (List (List String × EntryKind))
  parseResult : Except String String
  zipOk : String → Bool
  archiveType : String

/-- The parts of the inbound HTTP request that `BlueprintsUpload` reads:
the `blueprint_archive_url` query parameter, the `application_file_name`
query parameter (still percent-encoded), `request.data`, the presence of a
`Transfer-Encoding` header, and the chunked input stream. -/
structure Request where
  blueprint_archive_url : Option String
  application_file_name : Option String
  data : String
  transfer_encoding : Bool
  input_stream : List String

/-- The process-wide store layout configuration read from
`config.instance()`. -/
structure Config where
  file_server_root : List String
  file_server_blueprints_folder : String
  file_server_uploaded_blueprints_folder : String
  file_server_base_uri : String

def CONVENTION_APPLICATION_BLUEPRINT_FILE : String := "blueprint.yaml"

def SUPPORTED_ARCHIVE_TYPES : List String := ["zip", "tar", "tar.gz", "tar.bz2"]

/-- Message of the ambiguous-source rejection in `_save_file_locally`. -/
def MSG_BOTH_SOURCES : String :=
  "cannot pass both a blueprint URL via query parameters and blueprint " ++
  "data via the request body at the same time"

/-- Message of the no-source rejection in `_save_file_locally`. -/
def MSG_MISSING_INPUT : String :=
  "Missing application archive in request body or " ++
  "blueprint_archive_url in query parameters"

/-- Message of the unrecognized-format rejection in
`_extract_file_to_file_server`. -/
def MSG_UNRECOGNIZED_FORMAT : String :=
  "Blueprint archive is of an unrecognized format. Supported formats " ++
  "are: " ++ String.intercalate ", " SUPPORTED_ARCHIVE_TYPES

/-- Message of the structural-validation rejection in
`_extract_file_to_file_server`. -/
def MSG_STRUCTURAL : String := "archive must contain exactly 1 directory"

/-- Message of the missing-default-definition rejection in
`_extract_application_file`. -/
def MSG_MISSING_DEFAULT_DEFINITION : String :=
  "application directory is missing blueprint.yaml and " ++
  "application_file_name query parameter was not passed"

/-- Message of the defensive check in
`_move_archive_to_uploaded_blueprints_dir`. -/
def MSG_ARCHIVE_GONE : String :=
  "Archive does not exist - Cannot move archive to uploaded blueprints directory"

/-- Message of the explicit-filename rejection in
`_extract_application_file`; the argument is the decoded filename. -/
def msgNotInAppDir (name : String) : String :=
  name ++ " does not exist in the application directory"

/-- Message wrapping the parser diagnostic in
`_prepare_and_submit_blueprint`. -/
def msgInvalidBlueprint (diag : String) : String :=
  "Invalid blueprint - " ++ diag

/-- Hexadecimal value of a character, if it is a hex digit. -/
def hexVal (c : Char) : Option Nat :=
  if c.isDigit then some (c.toNat - 48)
  else if 65 ≤ c.toNat && c.toNat ≤ 70 then some (c.toNat - 55)
  else if 97 ≤ c.toNat && c.toNat ≤ 102 then some (c.toNat - 87)
  else none

/-- Python `urllib.unquote`: percent-decode, leaving malformed escapes
untouched. -/
def unquoteAux : List Char → List Char
  | [] => []
  | '%' :: a :: b :: rest =>
      match hexVal a, hexVal b with
      | some x, some y => Char.ofNat (16 * x + y) :: unquoteAux rest
      | _, _ => '%' :: unquoteAux (a :: b :: rest)
  | c :: rest => c :: unquoteAux rest

def unquote (s : String) : String := ⟨unquoteAux s.data⟩

/-- Split a decoded filename on `/`, giving the path components that
`os.path.join` appends. -/
def splitSlash (s : String) : List String :=
  let r := s.data.foldl
    (fun (acc : List String × String) c =>
      if c = '/' then (acc.1 ++ [acc.2], "") else (acc.1, acc.2.push c))
    ([], "")
  r.1 ++ [r.2]

/-- The last filesystem snapshot of a trace, or the initial filesystem
when the trace is empty. -/
def lastState (fs : FS) (tr : List FS) : FS := tr.getLastD fs

/-- Translation of `BlueprintsUpload._save_file_locally`. -/
def save_file_locally (req : Request) (env : Env) (archive_file_name : List String)
    (fs : FS) : Except Err Unit × List FS :=
  match req.blueprint_archive_url with
  | some url =>
      if req.data != "" || req.transfer_encoding then
        (.error (.badParameters MSG_BOTH_SOURCES), [])
      else
        match env.fetch with
        | .ok bytes => (.ok (), [fs.writeFile archive_file_name bytes])
        | .urlError =>
            (.error (.paramUrlNotFound
              ("URL " ++ url ++ " not found - cannot download blueprint archive")), [])
        | .malformed =>
            (.error (.badParameters
              ("URL " ++ url ++ " is malformed - cannot download blueprint archive")), [])
  | none =>
      if req.transfer_encoding then
        (.ok (), [fs.writeFile archive_file_name (String.join req.input_stream)])
      else if req.data == "" then
        (.error (.badParameters MSG_MISSING_INPUT), [])
      else
        (.ok (), [fs.writeFile archive_file_name req.data])

/-- Translation of `BlueprintsUpload._extract_file_to_file_server`. -/
def extract_file_to_file_server (env : Env) (file_server_root : List String)
    (fs : FS) : Except Err String × List FS :=
  let tempdir : List String := ["tmp", env.tempdirName]
  let fs1 := fs.makedirs tempdir
  match env.unpackResult with
  | .error _ =>
      (.error (.badParameters MSG_UNRECOGNIZED_FORMAT), [fs1, fs1.rmtree tempdir])
  | .ok entries =>
      let fs2 := fs1.addEntries tempdir entries
      let archive_file_list := fs2.listdir tempdir
      if archive_file_list.length == 1
          && fs2.isDir (tempdir ++ [archive_file_list.headD ""]) then
        let application_dir_base_name := archive_file_list.headD ""
        let generated_app_dir_name := application_dir_base_name ++ "-" ++ env.uuid
        let fs3 := fs2.move (tempdir ++ [application_dir_base_name])
                           (tempdir ++ [generated_app_dir_name])
        let fs4 := fs3.move (tempdir ++ [generated_app_dir_name])
                           (file_server_root ++ [generated_app_dir_name])
        (.ok generated_app_dir_name, [fs1, fs2, fs3, fs4, fs4.rmtree tempdir])
      else
        (.error (.badParameters MSG_STRUCTURAL), [fs1, fs2, fs2.rmtree tempdir])

/-- Translation of `BlueprintsUpload._extract_application_file` (pure:
it only reads the filesystem). -/
def extract_application_file (req : Request) (file_server_root : List String)
    (application_dir : String) (fs : FS) : Except Err (List String) :=
  let full_application_dir := file_server_root ++ [application_dir]
  match req.application_file_name with
  | some encoded =>
      let application_file_name := unquote encoded
      let comps := splitSlash application_file_name
      if fs.isFile (full_application_dir ++ comps) then
        .ok ([application_dir] ++ comps)
      else
        .error (.badParameters (msgNotInAppDir application_file_name))
  | none =>
      if fs.isFile (full_application_dir ++ [CONVENTION_APPLICATION_BLUEPRINT_FILE]) then
        .ok [application_dir, CONVENTION_APPLICATION_BLUEPRINT_FILE]
      else
        .error (.badParameters MSG_MISSING_DEFAULT_DEFINITION)

/-- Translation of the loop body of `BlueprintsUpload._process_plugins`:
zip each plugin directory in turn, stopping at the first `zipfile`
failure, which propagates as an exception. -/
def zipPlugins (env : Env) (plugins_directory : List String) :
    List String → FS → Except Err Unit × List FS
  | [], _ => (.ok (), [])
  | d :: rest, fs =>
      if env.zipOk d then
        let fs1 := fs.writeFile (plugins_directory ++ [d ++ ".zip"]) ("zip-of-" ++ d)
        let (r, tr) := zipPlugins env plugins_directory rest fs1
        (r, fs1 :: tr)
      else
        (.error (.ioError ("zip failed for " ++ d)), [])

/-- Translation of `BlueprintsUpload._process_plugins`.  Note the source
addresses the blueprint under the literal `"blueprints"` folder name here,
not under `config.file_server_blueprints_folder`. -/
def process_plugins (env : Env) (file_server_root : List String)
    (blueprint_id : String) (fs : FS) : Except Err Unit × List FS :=
  let plugins_directory := file_server_root ++ ["blueprints", blueprint_id, "plugins"]
  if !(fs.isDir plugins_directory) then
    (.ok (), [])
  else
    let plugins := (fs.listdir plugins_directory).filter
      (fun d => fs.isDir (plugins_directory ++ [d]))
    zipPlugins env plugins_directory plugins fs

/-- Translation of `BlueprintsUpload._prepare_and_submit_blueprint`.  Only
`DslParseException` (modelled by `env.parseResult = .error msg`) is caught
and triggers the staged-directory rollback; any exception escaping
`_process_plugins` propagates uncaught. -/
def prepare_and_submit_blueprint (cfg : Config) (req : Request) (env : Env)
    (file_server_root : List String) (application_dir : String)
    (_blueprint_id : String) (fs : FS) : Except Err String × List FS :=
  match extract_application_file req file_server_root application_dir fs with
  | .error e => (.error e, [])
  | .ok _application_file =>
      match env.parseResult with
      | .error msg =>
          (.error (.invalidBlueprint (msgInvalidBlueprint msg)),
           [fs.rmtree (file_server_root ++ [application_dir])])
      | .ok bid =>
          let fs1 := fs.move (file_server_root ++ [application_dir])
            (file_server_root ++ [cfg.file_server_blueprints_folder, bid])
          let (r, tr) := process_plugins env file_server_root bid fs1
          match r with
          | .error e => (.error e, fs1 :: tr)
          | .ok _ => (.ok bid, fs1 :: tr)

/-- Translation of `BlueprintsUpload._move_archive_to_uploaded_blueprints_dir`. -/
def move_archive_to_uploaded_blueprints_dir (cfg : Config) (env : Env)
    (blueprint_id : String) (file_server_root archive_path : List String)
    (fs : FS) : Except Err Unit × List FS :=
  if !(fs.pathExists archive_path) then
    (.error (.runtimeError MSG_ARCHIVE_GONE), [])
  else
    let uploaded_blueprint_dir := file_server_root ++
      [cfg.file_server_uploaded_blueprints_folder, blueprint_id]
    let fs1 := fs.makedirs uploaded_blueprint_dir
    let archive_file_name := blueprint_id ++ "." ++ env.archiveType
    (.ok (), [fs1, fs1.move archive_path (uploaded_blueprint_dir ++ [archive_file_name])])

/-- Translation of `BlueprintsUpload.do_request`: the full ingestion with
its `finally` block deleting the temp archive file when it still exists. -/
def do_request (cfg : Config) (req : Request) (env : Env)
    (_blueprint_id : String) (fs : FS) : Except Err (String × Nat) × List FS :=
  let file_server_root := cfg.file_server_root
  let archive_target_path := file_server_root ++ [env.tempName]
  let body : Except Err (String × Nat) × List FS :=
    match save_file_locally req env archive_target_path fs with
    | (.error e, tr) => (.error e, tr)
    | (.ok _, tr1) =>
        let fsA := lastState fs tr1
        match extract_file_to_file_server env file_server_root fsA with
        | (.error e, tr2) => (.error e, tr1 ++ tr2)
        | (.ok application_dir, tr2) =>
            let fsB := lastState fsA tr2
            match prepare_and_submit_blueprint cfg req env file_server_root
                application_dir _blueprint_id fsB with
            | (.error e, tr3) => (.error e, tr1 ++ tr2 ++ tr3)
            | (.ok bid, tr3) =>
                let fsC := lastState fsB tr3
                match move_archive_to_uploaded_blueprints_dir cfg env bid
                    file_server_root archive_target_path fsC with
                | (.error e, tr4) => (.error e, tr1 ++ tr2 ++ tr3 ++ tr4)
                | (.ok _, tr4) => (.ok (bid, 201), tr1 ++ tr2 ++ tr3 ++ tr4)
  let fsEnd := lastState fs body.2
  if fsEnd.pathExists archive_target_path then
    (body.1, body.2 ++ [fsEnd.removeFile archive_target_path])
  else
    (body.1, body.2)

/-- A path component that survives OS path resolution unchanged. -/
def normalComp (c : String) : Bool := c != "" && c != "." && c != ".."

/-- Every component of the path is a normal component. -/
def normalPath (p : List String) : Bool := p.all normalComp

/-! Concrete fixtures shared by the witnesses and counterexamples. -/

/-- Store layout used by the concrete scenarios. -/
def cfg0 : Config := ⟨["root"], "blueprints", "uploaded-blueprints", "http://fileserver"⟩

/-- Initial store: the file server root and the OS temp root exist, nothing else. -/
def fs0 : FS := ⟨[["root"], ["tmp"]], []⟩

/-- A request carrying both a URL parameter and a nonempty body. -/
def reqBoth : Request := ⟨some "http://x/a.zip", none, "zipbytes", false, []⟩

/-- A request with no URL parameter, no body and no chunked stream. -/
def reqNoInput : Request := ⟨none, none, "", false, []⟩

/-- A plain body upload with no explicit entry filename. -/
def reqBody : Request := ⟨none, none, "zipbytes", false, []⟩

/-- An environment whose external collaborators are never consulted
before acquisition fails. -/
def env0 : Env := ⟨"tmpA", "t1", "u1", .ok "remote", .error (), .error "unused",
  fun _ => true, "zip"⟩

/-- Staged directory holding a parsed blueprint, used by the C5 witness. -/
def fsC5 : FS := ⟨[["root"], ["tmp"], ["root", "app-u1"]],
  [(["root", "app-u1", "blueprint.yaml"], "tosca")]⟩

/-- Environment whose parser rejects the content. -/
def envParseFail : Env := ⟨"tmpA", "t1", "u1", .urlError,
  .ok [(["app"], .dir), (["app", "blueprint.yaml"], .file "tosca")],
  .error "bad dsl", fun _ => true, "zip"⟩

/-- Staged directory whose entry file has a percent-encodable name, used
by the C9 witness. -/
def fsC9 : FS := ⟨[["root"], ["tmp"], ["root", "app-u2"]],
  [(["root", "app-u2", "bp.yaml"], "tosca")]⟩

/-- Request carrying a percent-encoded explicit entry filename. -/
def reqEnc : Request := ⟨none, some "bp%2Eyaml", "zipbytes", false, []⟩

/-- Store with a file outside the staged directory, used by the C10
witness. -/
def fsC10 : FS := ⟨[["root"], ["tmp"], ["root", "app-u1"], ["etc"]],
  [(["etc", "passwd"], "secret")]⟩

/-- Request whose explicit entry filename percent-encodes a traversal
path. -/
def reqTraversal : Request := ⟨none, some "..%2F..%2Fetc%2Fpasswd", "zipbytes",
  false, []⟩

/-- Archive whose single top directory lacks `blueprint.yaml`. -/
def envNoYaml : Env := ⟨"tmpA", "t1", "u1", .urlError,
  .ok [(["app"], .dir), (["app", "other.txt"], .file "x")],
  .ok "bid", fun _ => true, "zip"⟩

/-- Well-formed archive, accepting parser, working zip. -/
def envGood : Env := ⟨"tmpA", "t1", "u1", .urlError,
  .ok [(["app"], .dir), (["app", "blueprint.yaml"], .file "tosca")],
  .ok "bid", fun _ => true, "zip"⟩

/-- Well-formed archive with a plugins directory whose zipping fails. -/
def envZipFail : Env := ⟨"tmpA", "t1", "u1", .urlError,
  .ok [(["app"], .dir), (["app", "blueprint.yaml"], .file "tosca"),
       (["app", "plugins"], .dir), (["app", "plugins", "p1"], .dir),
       (["app", "plugins", "p1", "setup.py"], .file "s")],
  .ok "bid", fun _ => false, "zip"⟩

/-- Store holding only the temp archive file, used by the C6 witness. -/
def fsC6 : FS := ⟨[["root"], ["tmp"]], [(["root", "tmpA"], "zipbytes")]⟩

/-- Predicate written from the spec's words: the archive's unpacked
content is exactly one top-level directory named `d`, with arbitrary
nested content below it (every entry path starts with `d`). -/
def specSingleTopDir (es : List (List String × EntryKind)) (d : String) : Prop :=
  ([d], EntryKind.dir) ∈ es ∧ ∀ e ∈ es, e.1.head? = some d

lemma normPath_go (p : List String) (h : ∀ c ∈ p, normalComp c = true) :
    ∀ acc, p.foldl
      (fun acc c =>
        if c = "" || c = "." then acc
        else if c = ".." then acc.dropLast
        else acc ++ [c]) acc = acc ++ p := by
  induction p with
  | nil => intro acc; simp
  | cons c p ih =>
      intro acc
      have hc : normalComp c = true := h c (by simp)
      have h1 : ¬ (c = "" || c = "." ) = true := by
        simp only [normalComp, Bool.and_eq_true, bne_iff_ne, ne_eq] at hc
        simp [hc.1.1, hc.1.2]
      have h2 : c ≠ ".." := by
        simp only [normalComp, Bool.and_eq_true, bne_iff_ne, ne_eq] at hc
        exact hc.2
      simp only [List.foldl_cons]
      rw [if_neg h1, if_neg h2]
      rw [ih (fun d hd => h d (by simp [hd])) (acc ++ [c])]
      simp

lemma normPath_eq_self {p : List String} (h : normalPath p = true) :
    normPath p = p := by
  have h' : ∀ c ∈ p, normalComp c = true := by
    simpa [normalPath, List.all_eq_true] using h
  unfold normPath
  rw [normPath_go p h' []]
  simp

lemma underPath_self (p : List String) : underPath p p = true := by
  simp [underPath]

lemma underPath_append (p q : List String) : underPath p (p ++ q) = true := by
  simp [underPath, List.take_append]

lemma not_underPath_of_length_lt {base q : List String}
    (h : q.length < base.length) : underPath base q = false := by
  simp only [underPath, beq_eq_false_iff_ne, ne_eq]
  intro heq
  have : (q.take base.length).length = base.length := by rw [heq]
  simp only [List.length_take] at this
  omega

lemma eq_append_of_underPath {base q : List String}
    (h : underPath base q = true) : q = base ++ q.drop base.length := by
  simp only [underPath, beq_iff_eq] at h
  conv_lhs => rw [← List.take_append_drop base.length q, h]

lemma underPath_parent {base q : List String} {x : String}
    (h : underPath (base ++ [x]) q = true) : underPath base q = true := by
  have hq := eq_append_of_underPath h
  rw [hq]
  simp [underPath, List.take_append]

lemma underPath_trans {a b q : List String}
    (h1 : underPath a b = true) (h2 : underPath b q = true) :
    underPath a q = true := by
  rw [eq_append_of_underPath h2, eq_append_of_underPath h1]
  simpa using underPath_append a _

/-- Basic component facts about the primitive filesystem operations. -/
lemma FS.dirs_writeFile (fs : FS) (p : List String) (c : String) :
    (fs.writeFile p c).dirs = fs.dirs := rfl

lemma FS.dirs_removeFile (fs : FS) (p : List String) :
    (fs.removeFile p).dirs = fs.dirs := rfl

lemma FS.files_makedirs (fs : FS) (p : List String) :
    (fs.makedirs p).files = fs.files := rfl

lemma FS.isFile_writeFile_self (fs : FS) (p : List String) (c : String) :
    (fs.writeFile p c).isFile p = true := by
  simp [FS.isFile, FS.writeFile]

lemma FS.isFile_writeFile_mono {fs : FS} {q : List String}
    (h : fs.isFile q = true) (p : List String) (c : String) :
    (fs.writeFile p c).isFile q = true := by
  simp only [FS.isFile, FS.writeFile, List.any_eq_true] at h ⊢
  obtain ⟨e, he, heq⟩ := h
  by_cases hpq : e.1 = normPath p
  · exact ⟨(normPath p, c), by simp, by rw [← hpq]; exact heq⟩
  · exact ⟨e, by simp [List.mem_filter, he, hpq], heq⟩

lemma FS.isFile_removeFile_self (fs : FS) (p : List String) :
    (fs.removeFile p).isFile p = false := by
  simp only [FS.isFile, FS.removeFile]
  rw [List.any_eq_false]
  intro e he
  simp only [List.mem_filter, bne_iff_ne, ne_eq] at he
  simp [he.2]

lemma FS.mem_dirs_makedirs {A : FS} {q : List String} (p : List String)
    (h : q ∈ (A.makedirs p).dirs) :
    q ∈ A.dirs ∨ q ∈ prefixesOf (normPath p) := by
  simp only [FS.makedirs, List.mem_append, List.mem_filter] at h
  rcases h with h | h
  · exact .inl h
  · exact .inr h.1

lemma FS.self_mem_dirs_makedirs (fs : FS) {p : List String}
    (h : normPath p ≠ []) : normPath p ∈ (fs.makedirs p).dirs := by
  by_cases hmem : fs.dirs.contains (normPath p)
  · simp only [FS.makedirs, List.mem_append]
    exact .inl (by simpa using hmem)
  · simp only [FS.makedirs, List.mem_append, List.mem_filter]
    refine .inr ⟨?_, by simpa using hmem⟩
    have hlen : 0 < (normPath p).length := List.length_pos.mpr h
    simp only [prefixesOf, List.mem_map, List.mem_range]
    exact ⟨(normPath p).length - 1, by omega, by
      rw [Nat.sub_add_cancel hlen, List.take_length]⟩

lemma FS.mem_dirs_makedirs_mono {fs : FS} {q : List String} (p : List String)
    (h : q ∈ fs.dirs) : q ∈ (fs.makedirs p).dirs := by
  simp [FS.makedirs, h]

lemma FS.isDir_rmtree_le {fs : FS} {p q : List String}
    (h : (fs.rmtree p).isDir q = true) : fs.isDir q = true := by
  simp only [FS.isDir, FS.rmtree, List.elem_eq_mem, decide_eq_true_eq,
    List.mem_filter] at h ⊢
  exact h.1

lemma FS.pathExists_rmtree_self (fs : FS) (p : List String) :
    (fs.rmtree p).pathExists p = false := by
  simp only [FS.pathExists, FS.rmtree, FS.isDir, FS.isFile,
    Bool.or_eq_false_iff]
  constructor
  · simp only [List.elem_eq_mem, decide_eq_false_iff_not, List.mem_filter,
      not_and]
    intro _
    simp [underPath_self]
  · rw [List.any_eq_false]
    intro e he
    simp only [List.mem_filter, Bool.not_eq_true'] at he
    intro hbe
    have : e.1 = normPath p := by simpa using hbe
    rw [this, underPath_self] at he
    simp at he

/-- C3: supplying both a `blueprint_archive_url` query parameter and an
inline (nonempty) request body makes acquisition fail with the
`BadParametersError` that models the spec's `InvalidParameterError`,
before any I/O: the ingestion performs no filesystem mutation at all (the
snapshot trace is empty), for every configuration, environment and
starting filesystem in which the `mktemp` name is fresh. -/
theorem c3_theorem (cfg : Config) (req : Request) (env : Env) (bid url : String)
    (fs : FS)
    (hurl : req.blueprint_archive_url = some url)
    (hbody : req.data ≠ "")
    (hfresh : fs.pathExists (cfg.file_server_root ++ [env.tempName]) = false) :
    (do_request cfg req env bid fs).1 = .error (.badParameters MSG_BOTH_SOURCES) ∧
    (do_request cfg req env bid fs).2 = [] := by
  have hsave : save_file_locally req env (cfg.file_server_root ++ [env.tempName]) fs
      = (.error (.badParameters MSG_BOTH_SOURCES), []) := by
    unfold save_file_locally
    rw [hurl]
    have hb : (req.data != "") = true := bne_iff_ne.mpr hbody
    simp [hb]
  simp only [do_request, hsave, lastState, List.getLastD_nil]
  simp [hfresh]

/-- Witness for `c3_theorem` at a concrete request. -/
theorem c3_witness :
    (do_request cfg0 reqBoth env0 "b1" fs0).1 =
      .error (.badParameters MSG_BOTH_SOURCES) ∧
    (do_request cfg0 reqBoth env0 "b1" fs0).2 = [] :=
  c3_theorem cfg0 reqBoth env0 "b1" "http://x/a.zip" fs0 rfl (by decide) (by decide)

/-- C8 (amended): with no URL parameter, no body and no chunked stream,
acquisition fails before any I/O — empty snapshot trace — but with the
same exception class `BadParametersError` that the ambiguous-source case
uses (the code does not have a distinct missing-input error kind); only
the message differs. -/
theorem c8_theorem (cfg : Config) (req : Request) (env : Env) (bid : String)
    (fs : FS)
    (hurl : req.blueprint_archive_url = none)
    (hte : req.transfer_encoding = false)
    (hdata : req.data = "")
    (hfresh : fs.pathExists (cfg.file_server_root ++ [env.tempName]) = false) :
    (do_request cfg req env bid fs).1 = .error (.badParameters MSG_MISSING_INPUT) ∧
    (do_request cfg req env bid fs).2 = [] ∧
    Err.kind (.badParameters MSG_MISSING_INPUT) =
      Err.kind (.badParameters MSG_BOTH_SOURCES) := by
  have hsave : save_file_locally req env (cfg.file_server_root ++ [env.tempName]) fs
      = (.error (.badParameters MSG_MISSING_INPUT), []) := by
    unfold save_file_locally
    rw [hurl, hte, hdata]
    simp
  simp only [do_request, hsave, lastState, List.getLastD_nil]
  simp [hfresh, Err.kind]

/-- Witness for `c8_theorem` at a concrete request. -/
theorem c8_witness :
    (do_request cfg0 reqNoInput env0 "b1" fs0).1 =
      .error (.badParameters MSG_MISSING_INPUT) ∧
    (do_request cfg0 reqNoInput env0 "b1" fs0).2 = [] ∧
    Err.kind (.badParameters MSG_MISSING_INPUT) =
      Err.kind (.badParameters MSG_BOTH_SOURCES) :=
  c8_theorem cfg0 reqNoInput env0 "b1" fs0 rfl rfl rfl (by decide)

/-- C8 counterexample: the missing-input failure and the ambiguous-source
failure carry the very same externally observable error kind (both are
`BadParametersError`); the claim that the former is a distinct kind from
the latter is false at these concrete requests. -/
theorem c8_counterexample :
    (do_request cfg0 reqNoInput env0 "b2" fs0).1 =
      .error (.badParameters MSG_MISSING_INPUT) ∧
    (do_request cfg0 reqBoth env0 "b2" fs0).1 =
      .error (.badParameters MSG_BOTH_SOURCES) ∧
    Err.kind (.badParameters MSG_MISSING_INPUT) =
      Err.kind (.badParameters MSG_BOTH_SOURCES) :=
  ⟨rfl, rfl, rfl⟩

/-- C5: when the external parser rejects the content (a `DslParseException`
with diagnostic `diag`), `_prepare_and_submit_blueprint` fails with
`InvalidBlueprintError` wrapping the diagnostic, its only mutation is the
`rmtree` of the whole staged directory — which therefore no longer exists
afterwards — and no directory whatsoever (in particular none under the
permanent `blueprints/<id>/` namespace) is created. -/
theorem c5_theorem (cfg : Config) (req : Request) (env : Env)
    (root : List String) (adir bid diag : String) (apf : List String) (fs : FS)
    (hloc : extract_application_file req root adir fs = .ok apf)
    (hparse : env.parseResult = .error diag) :
    (prepare_and_submit_blueprint cfg req env root adir bid fs).1 =
      .error (.invalidBlueprint (msgInvalidBlueprint diag)) ∧
    lastState fs (prepare_and_submit_blueprint cfg req env root adir bid fs).2 =
      fs.rmtree (root ++ [adir]) ∧
    (fs.rmtree (root ++ [adir])).pathExists (root ++ [adir]) = false ∧
    (∀ q, (fs.rmtree (root ++ [adir])).isDir q = true → fs.isDir q = true) := by
  have hrun : prepare_and_submit_blueprint cfg req env root adir bid fs =
      (.error (.invalidBlueprint (msgInvalidBlueprint diag)),
       [fs.rmtree (root ++ [adir])]) := by
    simp only [prepare_and_submit_blueprint, hloc, hparse]
  refine ⟨?_, ?_, FS.pathExists_rmtree_self fs _, fun q => FS.isDir_rmtree_le⟩
  · rw [hrun]
  · rw [hrun]
    simp [lastState]

/-- Witness for `c5_theorem` at a concrete staged blueprint. -/
theorem c5_witness :
    (prepare_and_submit_blueprint cfg0 reqBody envParseFail ["root"] "app-u1"
        "b1" fsC5).1 =
      .error (.invalidBlueprint (msgInvalidBlueprint "bad dsl")) ∧
    (fsC5.rmtree (["root"] ++ ["app-u1"])).pathExists (["root"] ++ ["app-u1"]) =
      false :=
  ⟨(c5_theorem cfg0 reqBody envParseFail ["root"] "app-u1" "b1" "bad dsl"
      ["app-u1", "blueprint.yaml"] fsC5 rfl rfl).1,
   (c5_theorem cfg0 reqBody envParseFail ["root"] "app-u1" "b1" "bad dsl"
      ["app-u1", "blueprint.yaml"] fsC5 rfl rfl).2.2.1⟩

/-- C9: the definition locator percent-decodes an explicit entry filename
before the filesystem lookup; it fails with the `BadParametersError` that
models `MissingDefinitionError` when the decoded explicit filename does
not exist under the staged directory, or when no explicit filename is
given and `blueprint.yaml` does not exist there; on success it returns
the entry path relative to the store root (prepending the store root to
the returned path locates the file; the root itself is not part of the
returned path). -/
theorem c9_theorem (req : Request) (root : List String) (adir : String) (fs : FS) :
    (∀ enc, req.application_file_name = some enc →
       fs.isFile (root ++ [adir] ++ splitSlash (unquote enc)) = false →
       extract_application_file req root adir fs =
         .error (.badParameters (msgNotInAppDir (unquote enc)))) ∧
    (req.application_file_name = none →
       fs.isFile (root ++ [adir, CONVENTION_APPLICATION_BLUEPRINT_FILE]) = false →
       extract_application_file req root adir fs =
         .error (.badParameters MSG_MISSING_DEFAULT_DEFINITION)) ∧
    (∀ enc, req.application_file_name = some enc →
       fs.isFile (root ++ [adir] ++ splitSlash (unquote enc)) = true →
       extract_application_file req root adir fs =
         .ok ([adir] ++ splitSlash (unquote enc))) ∧
    (req.application_file_name = none →
       fs.isFile (root ++ [adir, CONVENTION_APPLICATION_BLUEPRINT_FILE]) = true →
       extract_application_file req root adir fs =
         .ok [adir, CONVENTION_APPLICATION_BLUEPRINT_FILE]) ∧
    (∀ r, extract_application_file req root adir fs = .ok r →
       fs.isFile (root ++ r) = true) := by
  refine ⟨?_, ?_, ?_, ?_, ?_⟩
  · intro enc henc hmiss
    simp only [List.append_assoc, List.singleton_append] at hmiss
    simp [extract_application_file, henc, hmiss]
  · intro henc hmiss
    simp [extract_application_file, henc, hmiss]
  · intro enc henc hhit
    simp only [List.append_assoc, List.singleton_append] at hhit
    simp [extract_application_file, henc, hhit]
  · intro henc hhit
    simp [extract_application_file, henc, hhit]
  · intro r hr
    obtain ⟨u, afn, d, te, st⟩ := req
    cases afn with
    | some enc =>
        simp only [extract_application_file] at hr
        split at hr
        next hhit =>
          injection hr with hr'
          subst hr'
          simpa using hhit
        next => simp at hr
    | none =>
        simp only [extract_application_file] at hr
        split at hr
        next hhit =>
          injection hr with hr'
          subst hr'
          simpa using hhit
        next => simp at hr

/-- Witness for `c9_theorem`: the encoded name decodes to `bp.yaml` and is
found; with no explicit name and no `blueprint.yaml` the locator fails. -/
theorem c9_witness :
    extract_application_file reqEnc ["root"] "app-u2" fsC9 =
      .ok (["app-u2"] ++ splitSlash (unquote "bp%2Eyaml")) ∧
    extract_application_file reqBody ["root"] "app-u2" fsC9 =
      .error (.badParameters MSG_MISSING_DEFAULT_DEFINITION) :=
  ⟨(c9_theorem reqEnc ["root"] "app-u2" fsC9).2.2.1 "bp%2Eyaml" rfl (by decide),
   (c9_theorem reqBody ["root"] "app-u2" fsC9).2.1 rfl (by decide)⟩

/-- C10: when the decoded explicit entry filename contains
parent-directory components, the locator joins it under the staged
directory with no containment check; if the joined path resolves (through
`..`) to an existing file outside the staged directory, the lookup
succeeds and the joined path is returned, rather than the
missing-definition error being raised. -/
theorem c10_theorem (req : Request) (root : List String) (adir enc : String)
    (fs : FS)
    (henc : req.application_file_name = some enc)
    (_hescape : underPath (normPath (root ++ [adir]))
        (normPath (root ++ [adir] ++ splitSlash (unquote enc))) = false)
    (hfile : fs.isFile (root ++ [adir] ++ splitSlash (unquote enc)) = true) :
    extract_application_file req root adir fs =
      .ok ([adir] ++ splitSlash (unquote enc)) := by
  simp only [List.append_assoc, List.singleton_append] at hfile
  simp [extract_application_file, henc, hfile]

/-- Witness for `c10_theorem`: `..%2F..%2Fetc%2Fpasswd` decodes to
`../../etc/passwd`, escapes the staged directory, resolves to an existing
file and is accepted. -/
theorem c10_witness :
    extract_application_file reqTraversal ["root"] "app-u1" fsC10 =
      .ok (["app-u1"] ++ splitSlash (unquote "..%2F..%2Fetc%2Fpasswd")) :=
  c10_theorem reqTraversal ["root"] "app-u1" "..%2F..%2Fetc%2Fpasswd" fsC10
    rfl (by decide) (by decide)

/-- C1 counterexample: an ingestion that fails at definition location (the
staged single directory lacks `blueprint.yaml` and no override is given)
leaves the staged directory — a temporary artifact of the attempt — on
the store root, with its content, contradicting the claim that every
failing attempt leaves no temporary artifacts behind. -/
theorem c1_counterexample :
    (do_request cfg0 reqBody envNoYaml "b1" fs0).1 =
      .error (.badParameters MSG_MISSING_DEFAULT_DEFINITION) ∧
    (lastState fs0 (do_request cfg0 reqBody envNoYaml "b1" fs0).2).isDir
      ["root", "app-u1"] = true ∧
    (lastState fs0 (do_request cfg0 reqBody envNoYaml "b1" fs0).2).isFile
      ["root", "app-u1", "other.txt"] = true :=
  ⟨rfl, by decide, by decide⟩

/-- C2 counterexample: in a fully successful concrete ingestion the trace
contains an observable state in which `uploaded-blueprints/<id>/` already
exists but is still completely empty (the archive has not been moved in
yet): the transition of that permanent path into existence is not a
single rename. -/
theorem c2_counterexample :
    (do_request cfg0 reqBody envGood "bid" fs0).1 = .ok ("bid", 201) ∧
    ((do_request cfg0 reqBody envGood "bid" fs0).2.any
      (fun s => s.isDir ["root", "uploaded-blueprints", "bid"] &&
        !(s.isFile ["root", "uploaded-blueprints", "bid", "bid.zip"]) &&
        decide (s.listdir ["root", "uploaded-blueprints", "bid"] = []))) = true :=
  ⟨rfl, by decide⟩

/-- C6 counterexample: in a fully successful concrete ingestion there is
an observable state after step 2 has completed (the staged directory is
on the store root and the private extraction directory is already gone)
in which the temp archive file still exists; and the run ends with that
archive moved into the permanent uploaded-blueprints location — so the
archive is not deleted after step 2 and is consumed by a later step. -/
theorem c6_counterexample :
    (do_request cfg0 reqBody envGood "bid" fs0).1 = .ok ("bid", 201) ∧
    ((do_request cfg0 reqBody envGood "bid" fs0).2.any
      (fun s => s.isDir ["root", "app-u1"] && !(s.isDir ["tmp", "t1"]) &&
        s.isFile ["root", "tmpA"])) = true ∧
    (lastState fs0 (do_request cfg0 reqBody envGood "bid" fs0).2).isFile
      ["root", "uploaded-blueprints", "bid", "bid.zip"] = true :=
  ⟨rfl, by decide, by decide⟩

/-- C7 counterexample: when zipping the plugin directory fails after a
successful parse and permanent placement, the exception propagates and
the upload operation fails (it does not complete successfully), although
the blueprint's permanent directory remains in place. -/
theorem c7_counterexample :
    (do_request cfg0 reqBody envZipFail "bid" fs0).1 =
      .error (.ioError "zip failed for p1") ∧
    (lastState fs0 (do_request cfg0 reqBody envZipFail "bid" fs0).2).isDir
      ["root", "blueprints", "bid"] = true :=
  ⟨rfl, by decide⟩

@[ext] lemma FS.ext {a b : FS} (h1 : a.dirs = b.dirs) (h2 : a.files = b.files) :
    a = b := by
  cases a; cases b; simp_all

lemma normalPath_append {p q : List String} :
    normalPath (p ++ q) = (normalPath p && normalPath q) := List.all_append

lemma normalPath_dropLast {p : List String} (h : normalPath p = true) :
    normalPath p.dropLast = true := by
  simp only [normalPath, List.all_eq_true] at h ⊢
  exact fun c hc => h c (List.mem_of_mem_dropLast hc)

lemma normPath_append_eq {td x : List String} (htd : normalPath td = true)
    (hx : normalPath x = true) : normPath (td ++ x) = td ++ x :=
  normPath_eq_self (by rw [normalPath_append, htd, hx]; rfl)

lemma movePath_eq_of_not_under {src dst q : List String}
    (h : underPath src q = false) : movePath src dst q = q := by
  simp [movePath, h]

lemma movePath_self (src dst : List String) : movePath src dst src = dst := by
  simp [movePath, underPath_self, List.drop_length]

lemma map_movePath_of_not_under {l : List (List String)} {src dst : List String}
    (h : ∀ q ∈ l, underPath src q = false) :
    l.map (movePath src dst) = l := by
  rw [show l = l.map id by simp]
  rw [List.map_map]
  exact List.map_congr_left (fun a ha => by
    simp [movePath_eq_of_not_under (h a (by simpa using ha))])

lemma dedup_eq_singleton {l : List String} {d : String} (hne : l ≠ [])
    (hall : ∀ x ∈ l, x = d) : l.dedup = [d] := by
  induction l with
  | nil => exact absurd rfl hne
  | cons a l ih =>
      have ha : a = d := hall a (by simp)
      subst ha
      by_cases hl : l = []
      · subst hl; simp
      · have : l.dedup = [a] := ih hl (fun x hx => hall x (by simp [hx]))
        by_cases hmem : a ∈ l
        · rw [List.dedup_cons_of_mem hmem, this]
        · obtain ⟨y, l', rfl⟩ := List.exists_cons_of_ne_nil hl
          have : y = a := hall y (by simp)
          subst this
          simp at hmem

/-- Every directory added by `makedirs` below `td ++ x`, given that the
missing prefixes of `td` itself are below `td`, is below `td`. -/
lemma FS.makedirs_shape (A : FS) {t x f : List String}
    (hfull : normPath f = t ++ x)
    (hpre : ∀ pre ∈ prefixesOf t, pre ∉ A.dirs → underPath t pre = true) :
    ∃ nd, (A.makedirs f).dirs = A.dirs ++ nd ∧
      ∀ q ∈ nd, underPath t q = true := by
  refine ⟨(prefixesOf (normPath f)).filter (fun q => !(A.dirs.contains q)),
    rfl, ?_⟩
  intro q hq
  rw [List.mem_filter] at hq
  obtain ⟨hq1, hq2⟩ := hq
  have hq2' : q ∉ A.dirs := by simpa using hq2
  rw [hfull] at hq1
  simp only [prefixesOf, List.mem_map, List.mem_range] at hq1
  obtain ⟨i, hi, hqe⟩ := hq1
  by_cases hk : i + 1 ≤ t.length
  · have hqt : q = t.take (i + 1) := by
      rw [← hqe, List.take_append_of_le_length hk]
    refine hpre q ?_ hq2'
    simp only [prefixesOf, List.mem_map, List.mem_range]
    exact ⟨i, by omega, hqt.symm⟩
  · rw [← hqe]
    unfold underPath
    rw [List.take_take, min_eq_left (by omega), List.take_left]
    simp

/-- After `makedirs p`, every prefix of the normalized `p` is present. -/
lemma FS.makedirs_covers (A : FS) (p : List String) :
    ∀ pre ∈ prefixesOf (normPath p), pre ∈ (A.makedirs p).dirs := by
  intro pre hpre
  by_cases hmem : pre ∈ A.dirs
  · exact FS.mem_dirs_makedirs_mono p hmem
  · simp only [FS.makedirs, List.mem_append, List.mem_filter]
    exact .inr ⟨hpre, by simpa using hmem⟩

lemma FS.dirs_subset_addEntry (A : FS) (td : List String)
    (e : List String × EntryKind) {q : List String} (h : q ∈ A.dirs) :
    q ∈ (A.addEntry td e).dirs := by
  unfold FS.addEntry
  cases e.2 with
  | dir => exact FS.mem_dirs_makedirs_mono _ h
  | file c => exact FS.mem_dirs_makedirs_mono _ h

/-- Everything `addEntries` adds lies below `td`: directories are appended
and stay below `td`; files are prepended and stay below `td`; the files of
an original filesystem `fsO` (none below `td`) are preserved verbatim. -/
lemma FS.addEntries_shape (td : List String) (fsO : FS)
    (es : List (List String × EntryKind))
    (hOf : ∀ e ∈ fsO.files, underPath td e.1 = false)
    (htdn : normalPath td = true)
    (hesn : ∀ e ∈ es, normalPath e.1 = true) :
    ∀ (A : FS) (nf0 : List (List String × String)),
      (∀ pre ∈ prefixesOf td, pre ∈ A.dirs) →
      A.files = nf0 ++ fsO.files →
      (∀ x ∈ nf0, underPath td x.1 = true) →
      ∃ nd nf, (A.addEntries td es).dirs = A.dirs ++ nd ∧
        (∀ q ∈ nd, underPath td q = true) ∧
        (A.addEntries td es).files = nf ++ fsO.files ∧
        (∀ x ∈ nf, underPath td x.1 = true) := by
  induction es with
  | nil =>
      intro A nf0 hcov hfe hfu
      exact ⟨[], nf0, by simp [FS.addEntries], by simp,
        by simpa [FS.addEntries] using hfe, hfu⟩
  | cons e es ih =>
      intro A nf0 hcov hfe hfu
      have heN : normalPath e.1 = true := hesn e (by simp)
      have hesn' : ∀ x ∈ es, normalPath x.1 = true :=
        fun x hx => hesn x (by simp [hx])
      have hstep : (A.addEntries td (e :: es)) = ((A.addEntry td e).addEntries td es) := by
        simp [FS.addEntries]
      cases he2 : e.2 with
      | dir =>
          have hA' : A.addEntry td e = A.makedirs (td ++ e.1) := by
            unfold FS.addEntry
            rw [he2]
          obtain ⟨nd0, hD, hDu⟩ := A.makedirs_shape (t := td) (x := e.1)
            (f := td ++ e.1) (normPath_append_eq htdn heN)
            (fun pre hp hn => absurd (hcov pre hp) hn)
          have hcov' : ∀ pre ∈ prefixesOf td, pre ∈ (A.addEntry td e).dirs := by
            intro pre hp
            rw [hA', hD]
            exact List.mem_append_left _ (hcov pre hp)
          have hfe' : (A.addEntry td e).files = nf0 ++ fsO.files := by
            rw [hA']
            simpa [FS.files_makedirs] using hfe
          obtain ⟨nd1, nf1, h1, h2, h3, h4⟩ :=
            ih hesn' (A.addEntry td e) nf0 hcov' hfe' hfu
          refine ⟨nd0 ++ nd1, nf1, ?_, ?_, ?_, h4⟩
          · rw [← hstep] at h1
            rw [h1, hA', hD, List.append_assoc]
          · intro q hq
            rcases List.mem_append.mp hq with h | h
            · exact hDu q h
            · exact h2 q h
          · rw [← hstep] at h3
            exact h3
      | file c =>
          have hA' : A.addEntry td e =
              (A.makedirs (td ++ e.1.dropLast)).writeFile (td ++ e.1) c := by
            unfold FS.addEntry
            rw [he2]
          have hnp : normPath (td ++ e.1) = td ++ e.1 :=
            normPath_append_eq htdn heN
          have hnpu : underPath td (normPath (td ++ e.1)) = true := by
            rw [hnp]; exact underPath_append td e.1
          obtain ⟨nd0, hD, hDu⟩ := A.makedirs_shape (t := td)
            (x := e.1.dropLast) (f := td ++ e.1.dropLast)
            (normPath_append_eq htdn (normalPath_dropLast heN))
            (fun pre hp hn => absurd (hcov pre hp) hn)
          have hdirsA' : (A.addEntry td e).dirs = A.dirs ++ nd0 := by
            rw [hA', FS.dirs_writeFile, hD]
          have hfilesA' : (A.addEntry td e).files =
              ((normPath (td ++ e.1), c) ::
                nf0.filter (fun x => x.1 != normPath (td ++ e.1))) ++ fsO.files := by
            rw [hA']
            show (normPath (td ++ e.1), c) ::
              (A.makedirs (td ++ e.1.dropLast)).files.filter
                (fun x => x.1 != normPath (td ++ e.1)) = _
            rw [FS.files_makedirs, hfe, List.filter_append]
            have : fsO.files.filter (fun x => x.1 != normPath (td ++ e.1)) =
                fsO.files := by
              refine List.filter_eq_self.mpr ?_
              intro x hx
              rw [bne_iff_ne]
              intro hEq
              rw [← hEq] at hnpu
              rw [hOf x hx] at hnpu
              exact Bool.false_ne_true hnpu
            rw [this]
            rfl
          have hcov' : ∀ pre ∈ prefixesOf td, pre ∈ (A.addEntry td e).dirs := by
            intro pre hp
            rw [hdirsA']
            exact List.mem_append_left _ (hcov pre hp)
          have hfu' : ∀ x ∈ ((normPath (td ++ e.1), c) ::
              nf0.filter (fun x => x.1 != normPath (td ++ e.1))),
              underPath td x.1 = true := by
            intro x hx
            rcases List.mem_cons.mp hx with h | h
            · rw [h]; exact hnpu
            · exact hfu x (List.mem_of_mem_filter h)
          obtain ⟨nd1, nf1, h1, h2, h3, h4⟩ :=
            ih hesn' (A.addEntry td e) _ hcov' hfilesA' hfu'
          refine ⟨nd0 ++ nd1, nf1, ?_, ?_, ?_, h4⟩
          · rw [← hstep] at h1
            rw [h1, hdirsA', List.append_assoc]
          · intro q hq
            rcases List.mem_append.mp hq with h | h
            · exact hDu q h
            · exact h2 q h
          · rw [← hstep] at h3
            exact h3

/-- Removing the subtree below `td` from a filesystem that differs from
`fs` only by additions below `td` restores `fs` exactly. -/
lemma FS.rmtree_restore {fs A : FS} {td : List String}
    (htdnorm : normPath td = td)
    (hd : ∃ nd, A.dirs = fs.dirs ++ nd ∧ ∀ q ∈ nd, underPath td q = true)
    (hf : ∃ nf, A.files = nf ++ fs.files ∧ ∀ x ∈ nf, underPath td x.1 = true)
    (hfd : ∀ q ∈ fs.dirs, underPath td q = false)
    (hff : ∀ e ∈ fs.files, underPath td e.1 = false) :
    A.rmtree td = fs := by
  obtain ⟨nd, hD, hDu⟩ := hd
  obtain ⟨nf, hF, hFu⟩ := hf
  unfold FS.rmtree
  rw [htdnorm, hD, hF, List.filter_append, List.filter_append]
  have e1 : fs.dirs.filter (fun q => !(underPath td q)) = fs.dirs :=
    List.filter_eq_self.mpr (fun a ha => by simp [hfd a ha])
  have e2 : nd.filter (fun q => !(underPath td q)) = [] :=
    List.filter_eq_nil_iff.mpr (fun a ha => by simp [hDu a ha])
  have e3 : fs.files.filter (fun e => !(underPath td e.1)) = fs.files :=
    List.filter_eq_self.mpr (fun a ha => by simp [hff a ha])
  have e4 : nf.filter (fun e => !(underPath td e.1)) = [] :=
    List.filter_eq_nil_iff.mpr (fun a ha => by simp [hFu a ha])
  rw [e1, e2, e3, e4]
  ext <;> simp

/-- Deleting a freshly written file restores the filesystem. -/
lemma FS.removeFile_writeFile {fs : FS} {p : List String} (c : String)
    (h : fs.isFile p = false) :
    (fs.writeFile p c).removeFile p = fs := by
  unfold FS.removeFile FS.writeFile
  have hhead : (((normPath p, c) : List String × String).1 != normPath p) = false := by
    simp
  have : fs.files.filter (fun e => e.1 != normPath p) = fs.files := by
    refine List.filter_eq_self.mpr ?_
    intro a ha
    rw [bne_iff_ne]
    intro hEq
    rw [FS.isFile] at h
    rw [List.any_eq_false] at h
    exact h a ha (by simp [hEq])
  simp only [List.filter_cons, hhead, this]
  ext <;> simp [this]

lemma not_under_child {td q : List String} (x : String)
    (h : underPath td q = false) : underPath (td ++ [x]) q = false := by
  cases hc : underPath (td ++ [x]) q
  · rfl
  · exact absurd (underPath_parent hc) (by simp [h])

lemma underPath_append_right {td dst r : List String}
    (h : underPath td dst = true) : underPath td (dst ++ r) = true := by
  rw [eq_append_of_underPath h, List.append_assoc]
  exact underPath_append td _

lemma movePath_under_dichotomy {t s u q : List String}
    (hq : underPath t q = true) :
    underPath t (movePath s u q) = true ∨
    underPath u (movePath s u q) = true := by
  unfold movePath
  split
  · exact .inr (underPath_append u _)
  · exact .inl hq

lemma map_movePath_pairs_of_not_under {l : List (List String × String)}
    {src dst : List String}
    (h : ∀ e ∈ l, underPath src e.1 = false) :
    l.map (fun e => (movePath src dst e.1, e.2)) = l := by
  rw [show l = l.map id by simp]
  rw [List.map_map]
  refine List.map_congr_left ?_
  intro a ha
  simp only [Function.comp, id]
  rw [movePath_eq_of_not_under (h a (by simpa using ha))]

lemma td_normal {n : String} (hn : normalComp n = true) :
    normalPath ["tmp", n] = true := by
  simp only [normalPath, List.all_cons, List.all_nil, hn, Bool.and_true]
  decide

/-- Shape of the filesystem right after `mkdtemp` plus unpacking: only
additions below the private temp directory. -/
lemma unpacked_shape (env : Env) (fsA : FS) (es : List (List String × EntryKind))
    (htmp : ["tmp"] ∈ fsA.dirs)
    (htdn : normalComp env.tempdirName = true)
    (hff : ∀ x ∈ fsA.files, underPath ["tmp", env.tempdirName] x.1 = false)
    (hesn : ∀ x ∈ es, normalPath x.1 = true) :
    ∃ nd nf,
      ((fsA.makedirs ["tmp", env.tempdirName]).addEntries
          ["tmp", env.tempdirName] es).dirs = fsA.dirs ++ nd ∧
      (∀ q ∈ nd, underPath ["tmp", env.tempdirName] q = true) ∧
      ((fsA.makedirs ["tmp", env.tempdirName]).addEntries
          ["tmp", env.tempdirName] es).files = nf ++ fsA.files ∧
      (∀ x ∈ nf, underPath ["tmp", env.tempdirName] x.1 = true) := by
  have hnp : normPath ["tmp", env.tempdirName] = ["tmp", env.tempdirName] :=
    normPath_eq_self (td_normal htdn)
  have hprefs : prefixesOf ["tmp", env.tempdirName] =
      [["tmp"], ["tmp", env.tempdirName]] := rfl
  obtain ⟨nd0, hD0, hD0u⟩ := fsA.makedirs_shape
    (t := ["tmp", env.tempdirName]) (x := [])
    (f := ["tmp", env.tempdirName]) (by rw [hnp]; simp)
    (by
      intro pre hp hn
      rw [hprefs] at hp
      rcases List.mem_pair.mp hp with rfl | rfl
      · exact absurd htmp hn
      · exact underPath_self _)
  obtain ⟨nd1, nf1, hD1, hD1u, hF1, hF1u⟩ :=
    FS.addEntries_shape ["tmp", env.tempdirName] fsA es hff (td_normal htdn) hesn
      (fsA.makedirs ["tmp", env.tempdirName]) []
      (by
        intro pre hp
        refine (fsA.makedirs_covers ["tmp", env.tempdirName]) pre ?_
        rw [hnp]
        exact hp)
      (by rw [FS.files_makedirs, List.nil_append])
      (by intro x hx; simp at hx)
  refine ⟨nd0 ++ nd1, nf1, ?_, ?_, hF1, hF1u⟩
  · rw [hD1, hD0, List.append_assoc]
  · intro q hq
    rcases List.mem_append.mp hq with h | h
    · exact hD0u q h
    · exact hD1u q h

/-- A failing extraction restores the input filesystem exactly: the
private temp directory is removed whole, whether unpacking failed or the
structural check failed. -/
lemma extract_error_restore (env : Env) (root : List String) (fsA : FS) (e : Err)
    (htmp : ["tmp"] ∈ fsA.dirs)
    (htdn : normalComp env.tempdirName = true)
    (hfd : ∀ q ∈ fsA.dirs, underPath ["tmp", env.tempdirName] q = false)
    (hff : ∀ x ∈ fsA.files, underPath ["tmp", env.tempdirName] x.1 = false)
    (hesn : ∀ es, env.unpackResult = .ok es → ∀ x ∈ es, normalPath x.1 = true)
    (he : (extract_file_to_file_server env root fsA).1 = .error e) :
    lastState fsA (extract_file_to_file_server env root fsA).2 = fsA := by
  have hnp : normPath ["tmp", env.tempdirName] = ["tmp", env.tempdirName] :=
    normPath_eq_self (td_normal htdn)
  have hprefs : prefixesOf ["tmp", env.tempdirName] =
      [["tmp"], ["tmp", env.tempdirName]] := rfl
  obtain ⟨nd0, hD0, hD0u⟩ := fsA.makedirs_shape
    (t := ["tmp", env.tempdirName]) (x := [])
    (f := ["tmp", env.tempdirName]) (by rw [hnp]; simp)
    (by
      intro pre hp hn
      rw [hprefs] at hp
      rcases List.mem_pair.mp hp with rfl | rfl
      · exact absurd htmp hn
      · exact underPath_self _)
  cases hunp : env.unpackResult with
  | error u =>
      simp only [extract_file_to_file_server, hunp]
      simp only [lastState, List.getLastD_cons, List.getLastD_nil]
      exact FS.rmtree_restore hnp ⟨nd0, hD0, hD0u⟩
        ⟨[], by rw [FS.files_makedirs, List.nil_append],
          fun x hx => absurd hx (List.not_mem_nil x)⟩ hfd hff
  | ok es =>
      obtain ⟨nd, nf, h2d, h2du, h2f, h2fu⟩ :=
        unpacked_shape env fsA es htmp htdn hff (hesn es hunp)
      by_cases hcond :
          ((((fsA.makedirs ["tmp", env.tempdirName]).addEntries
              ["tmp", env.tempdirName] es).listdir
                ["tmp", env.tempdirName]).length == 1 &&
            ((fsA.makedirs ["tmp", env.tempdirName]).addEntries
              ["tmp", env.tempdirName] es).isDir
                (["tmp", env.tempdirName] ++
                  [(((fsA.makedirs ["tmp", env.tempdirName]).addEntries
                    ["tmp", env.tempdirName] es).listdir
                      ["tmp", env.tempdirName]).headD ""])) = true
      · simp only [extract_file_to_file_server, hunp, hcond, if_true] at he
        exact absurd he (by simp)
      · simp only [extract_file_to_file_server, hunp, if_neg hcond]
        simp only [lastState, List.getLastD_cons, List.getLastD_nil]
        exact FS.rmtree_restore hnp ⟨nd, h2d, h2du⟩ ⟨nf, h2f, h2fu⟩ hfd hff

lemma normalPath_singleton {c : String} (h : normalComp c = true) :
    normalPath [c] = true := by
  simp [normalPath, h]

lemma movePath_preserves_under {td src dst q : List String}
    (hdst : underPath td dst = true) (hq : underPath td q = true) :
    underPath td (movePath src dst q) = true := by
  unfold movePath
  split
  · exact underPath_append_right hdst
  · exact hq

/-- A successful extraction returns the generated staged name and changes
the filesystem only by additions below the staged directory on the store
root: result of moving the single unpacked top directory out and removing
the private temp directory. -/
lemma extract_success_shape (env : Env) (root : List String) (fsA : FS)
    (es : List (List String × EntryKind)) (b : String)
    (htmp : ["tmp"] ∈ fsA.dirs)
    (htdn : normalComp env.tempdirName = true)
    (hfd : ∀ q ∈ fsA.dirs, underPath ["tmp", env.tempdirName] q = false)
    (hff : ∀ x ∈ fsA.files, underPath ["tmp", env.tempdirName] x.1 = false)
    (hunp : env.unpackResult = .ok es)
    (hesn : ∀ x ∈ es, normalPath x.1 = true)
    (hlist : ((fsA.makedirs ["tmp", env.tempdirName]).addEntries
        ["tmp", env.tempdirName] es).listdir ["tmp", env.tempdirName] = [b])
    (hbdir : ((fsA.makedirs ["tmp", env.tempdirName]).addEntries
        ["tmp", env.tempdirName] es).isDir
        (["tmp", env.tempdirName] ++ [b]) = true)
    (hbn : normalComp b = true)
    (hgn : normalComp (b ++ "-" ++ env.uuid) = true)
    (hrootn : normalPath root = true)
    (hstg : underPath ["tmp", env.tempdirName]
        (root ++ [b ++ "-" ++ env.uuid]) = false) :
    (extract_file_to_file_server env root fsA).1 = .ok (b ++ "-" ++ env.uuid) ∧
    ∃ nd nf,
      lastState fsA (extract_file_to_file_server env root fsA).2 =
        ⟨fsA.dirs ++ nd, nf ++ fsA.files⟩ ∧
      (∀ q ∈ nd, underPath (root ++ [b ++ "-" ++ env.uuid]) q = true) ∧
      (∀ x ∈ nf, underPath (root ++ [b ++ "-" ++ env.uuid]) x.1 = true) ∧
      (root ++ [b ++ "-" ++ env.uuid]) ∈ fsA.dirs ++ nd := by
  have hnptd : normPath ["tmp", env.tempdirName] = ["tmp", env.tempdirName] :=
    normPath_eq_self (td_normal htdn)
  have hnsrc1 : normPath (["tmp", env.tempdirName] ++ [b]) =
      ["tmp", env.tempdirName] ++ [b] :=
    normPath_append_eq (td_normal htdn) (normalPath_singleton hbn)
  have hndst1 : normPath (["tmp", env.tempdirName] ++ [b ++ "-" ++ env.uuid]) =
      ["tmp", env.tempdirName] ++ [b ++ "-" ++ env.uuid] :=
    normPath_append_eq (td_normal htdn) (normalPath_singleton hgn)
  have hnstg : normPath (root ++ [b ++ "-" ++ env.uuid]) =
      root ++ [b ++ "-" ++ env.uuid] :=
    normPath_append_eq hrootn (normalPath_singleton hgn)
  obtain ⟨ndU, nfU, hUd, hUdu, hUf, hUfu⟩ :=
    unpacked_shape env fsA es htmp htdn hff hesn
  -- the structural condition holds
  have hcond : ((((fsA.makedirs ["tmp", env.tempdirName]).addEntries
      ["tmp", env.tempdirName] es).listdir
        ["tmp", env.tempdirName]).length == 1 &&
      ((fsA.makedirs ["tmp", env.tempdirName]).addEntries
        ["tmp", env.tempdirName] es).isDir
          (["tmp", env.tempdirName] ++
            [(((fsA.makedirs ["tmp", env.tempdirName]).addEntries
              ["tmp", env.tempdirName] es).listdir
                ["tmp", env.tempdirName]).headD ""])) = true := by
    rw [hlist]
    simpa using hbdir
  -- the run, with the generated name filled in
  have hres : extract_file_to_file_server env root fsA =
      (.ok (b ++ "-" ++ env.uuid),
       [fsA.makedirs ["tmp", env.tempdirName],
        (fsA.makedirs ["tmp", env.tempdirName]).addEntries
          ["tmp", env.tempdirName] es,
        ((fsA.makedirs ["tmp", env.tempdirName]).addEntries
          ["tmp", env.tempdirName] es).move
            (["tmp", env.tempdirName] ++ [b])
            (["tmp", env.tempdirName] ++ [b ++ "-" ++ env.uuid]),
        (((fsA.makedirs ["tmp", env.tempdirName]).addEntries
          ["tmp", env.tempdirName] es).move
            (["tmp", env.tempdirName] ++ [b])
            (["tmp", env.tempdirName] ++ [b ++ "-" ++ env.uuid])).move
            (["tmp", env.tempdirName] ++ [b ++ "-" ++ env.uuid])
            (root ++ [b ++ "-" ++ env.uuid]),
        ((((fsA.makedirs ["tmp", env.tempdirName]).addEntries
          ["tmp", env.tempdirName] es).move
            (["tmp", env.tempdirName] ++ [b])
            (["tmp", env.tempdirName] ++ [b ++ "-" ++ env.uuid])).move
            (["tmp", env.tempdirName] ++ [b ++ "-" ++ env.uuid])
            (root ++ [b ++ "-" ++ env.uuid])).rmtree
            ["tmp", env.tempdirName]]) := by
    unfold extract_file_to_file_server
    rw [hunp]
    dsimp only
    rw [if_pos hcond, hlist]
    rfl
  refine ⟨by rw [hres], ?_⟩
  -- shapes through the two moves and the final rmtree
  have hf3d : (((fsA.makedirs ["tmp", env.tempdirName]).addEntries
      ["tmp", env.tempdirName] es).move
        (["tmp", env.tempdirName] ++ [b])
        (["tmp", env.tempdirName] ++ [b ++ "-" ++ env.uuid])).dirs =
      fsA.dirs ++ ndU.map (movePath (["tmp", env.tempdirName] ++ [b])
        (["tmp", env.tempdirName] ++ [b ++ "-" ++ env.uuid])) := by
    show (((fsA.makedirs ["tmp", env.tempdirName]).addEntries
      ["tmp", env.tempdirName] es).dirs).map _ = _
    rw [hnsrc1, hndst1, hUd, List.map_append,
      map_movePath_of_not_under (fun q hq => not_under_child b (hfd q hq))]
  have hf3f : (((fsA.makedirs ["tmp", env.tempdirName]).addEntries
      ["tmp", env.tempdirName] es).move
        (["tmp", env.tempdirName] ++ [b])
        (["tmp", env.tempdirName] ++ [b ++ "-" ++ env.uuid])).files =
      nfU.map (fun e => (movePath (["tmp", env.tempdirName] ++ [b])
        (["tmp", env.tempdirName] ++ [b ++ "-" ++ env.uuid]) e.1, e.2)) ++
        fsA.files := by
    show (((fsA.makedirs ["tmp", env.tempdirName]).addEntries
      ["tmp", env.tempdirName] es).files).map _ = _
    rw [hnsrc1, hndst1, hUf, List.map_append,
      map_movePath_pairs_of_not_under
        (fun e he => not_under_child b (hff e he))]
  have hnd3u : ∀ q ∈ ndU.map (movePath (["tmp", env.tempdirName] ++ [b])
      (["tmp", env.tempdirName] ++ [b ++ "-" ++ env.uuid])),
      underPath ["tmp", env.tempdirName] q = true := by
    intro q hq
    obtain ⟨q0, hq0, rfl⟩ := List.mem_map.mp hq
    exact movePath_preserves_under (underPath_append _ _) (hUdu q0 hq0)
  have hnf3u : ∀ x ∈ nfU.map (fun e => (movePath (["tmp", env.tempdirName] ++ [b])
      (["tmp", env.tempdirName] ++ [b ++ "-" ++ env.uuid]) e.1, e.2)),
      underPath ["tmp", env.tempdirName] x.1 = true := by
    intro x hx
    obtain ⟨x0, hx0, rfl⟩ := List.mem_map.mp hx
    exact movePath_preserves_under (underPath_append _ _) (hUfu x0 hx0)
  refine ⟨((ndU.map (movePath (["tmp", env.tempdirName] ++ [b])
      (["tmp", env.tempdirName] ++ [b ++ "-" ++ env.uuid]))).map
        (movePath (["tmp", env.tempdirName] ++ [b ++ "-" ++ env.uuid])
          (root ++ [b ++ "-" ++ env.uuid]))).filter
      (fun q => !(underPath ["tmp", env.tempdirName] q)),
    ((nfU.map (fun e => (movePath (["tmp", env.tempdirName] ++ [b])
      (["tmp", env.tempdirName] ++ [b ++ "-" ++ env.uuid]) e.1, e.2))).map
        (fun e => (movePath (["tmp", env.tempdirName] ++ [b ++ "-" ++ env.uuid])
          (root ++ [b ++ "-" ++ env.uuid]) e.1, e.2))).filter
      (fun e => !(underPath ["tmp", env.tempdirName] e.1)), ?_, ?_, ?_, ?_⟩
  · -- the final filesystem equation
    rw [hres]
    show ((((fsA.makedirs ["tmp", env.tempdirName]).addEntries
      ["tmp", env.tempdirName] es).move
        (["tmp", env.tempdirName] ++ [b])
        (["tmp", env.tempdirName] ++ [b ++ "-" ++ env.uuid])).move
        (["tmp", env.tempdirName] ++ [b ++ "-" ++ env.uuid])
        (root ++ [b ++ "-" ++ env.uuid])).rmtree
        ["tmp", env.tempdirName] = _
    have hf4d : ((((fsA.makedirs ["tmp", env.tempdirName]).addEntries
        ["tmp", env.tempdirName] es).move
          (["tmp", env.tempdirName] ++ [b])
          (["tmp", env.tempdirName] ++ [b ++ "-" ++ env.uuid])).move
          (["tmp", env.tempdirName] ++ [b ++ "-" ++ env.uuid])
          (root ++ [b ++ "-" ++ env.uuid])).dirs =
        fsA.dirs ++ (ndU.map (movePath (["tmp", env.tempdirName] ++ [b])
          (["tmp", env.tempdirName] ++ [b ++ "-" ++ env.uuid]))).map
            (movePath (["tmp", env.tempdirName] ++ [b ++ "-" ++ env.uuid])
              (root ++ [b ++ "-" ++ env.uuid])) := by
      show (_ : FS).dirs.map _ = _
      rw [hndst1, hnstg, hf3d, List.map_append,
        map_movePath_of_not_under
          (fun q hq => not_under_child (b ++ "-" ++ env.uuid) (hfd q hq))]
    have hf4f : ((((fsA.makedirs ["tmp", env.tempdirName]).addEntries
        ["tmp", env.tempdirName] es).move
          (["tmp", env.tempdirName] ++ [b])
          (["tmp", env.tempdirName] ++ [b ++ "-" ++ env.uuid])).move
          (["tmp", env.tempdirName] ++ [b ++ "-" ++ env.uuid])
          (root ++ [b ++ "-" ++ env.uuid])).files =
        (nfU.map (fun e => (movePath (["tmp", env.tempdirName] ++ [b])
          (["tmp", env.tempdirName] ++ [b ++ "-" ++ env.uuid]) e.1, e.2))).map
            (fun e => (movePath (["tmp", env.tempdirName] ++ [b ++ "-" ++ env.uuid])
              (root ++ [b ++ "-" ++ env.uuid]) e.1, e.2)) ++ fsA.files := by
      show (_ : FS).files.map _ = _
      rw [hndst1, hnstg, hf3f, List.map_append,
        map_movePath_pairs_of_not_under
          (fun e he => not_under_child (b ++ "-" ++ env.uuid) (hff e he))]
    unfold FS.rmtree
    rw [hnptd, hf4d, hf4f, List.filter_append, List.filter_append]
    have e1 : fsA.dirs.filter
        (fun q => !(underPath ["tmp", env.tempdirName] q)) = fsA.dirs :=
      List.filter_eq_self.mpr (fun a ha => by simp [hfd a ha])
    have e2 : fsA.files.filter
        (fun e => !(underPath ["tmp", env.tempdirName] e.1)) = fsA.files :=
      List.filter_eq_self.mpr (fun a ha => by simp [hff a ha])
    rw [e1, e2]
  · intro q hq
    rw [List.mem_filter] at hq
    obtain ⟨hq1, hq2⟩ := hq
    obtain ⟨q0, hq0, rfl⟩ := List.mem_map.mp hq1
    rcases movePath_under_dichotomy (hnd3u q0 hq0) with h | h
    · rw [h] at hq2; simp at hq2
    · exact h
  · intro x hx
    rw [List.mem_filter] at hx
    obtain ⟨hx1, hx2⟩ := hx
    obtain ⟨x0, hx0, rfl⟩ := List.mem_map.mp hx1
    rcases movePath_under_dichotomy
      (t := ["tmp", env.tempdirName])
      (s := ["tmp", env.tempdirName] ++ [b ++ "-" ++ env.uuid])
      (u := root ++ [b ++ "-" ++ env.uuid]) (hnf3u x0 hx0) with h | h
    · rw [h] at hx2; simp at hx2
    · exact h
  · -- the staged directory itself is present
    refine List.mem_append_right _ ?_
    rw [List.mem_filter]
    constructor
    · refine List.mem_map.mpr ⟨["tmp", env.tempdirName] ++ [b ++ "-" ++ env.uuid],
        ?_, movePath_self _ _⟩
      refine List.mem_map.mpr ⟨["tmp", env.tempdirName] ++ [b],
        ?_, movePath_self _ _⟩
      have h2 : ["tmp", env.tempdirName] ++ [b] ∈
          ((fsA.makedirs ["tmp", env.tempdirName]).addEntries
            ["tmp", env.tempdirName] es).dirs := by
        have := hbdir
        rw [FS.isDir, hnsrc1] at this
        simpa using this
      rw [hUd] at h2
      rcases List.mem_append.mp h2 with h | h
      · have hua := underPath_append ["tmp", env.tempdirName] [b]
        rw [hfd _ h] at hua
        exact absurd hua Bool.false_ne_true
      · exact h
    · simp [hstg]

lemma lastState_nil (fs : FS) : lastState fs [] = fs := rfl

lemma lastState_singleton (fs a : FS) : lastState fs [a] = a := rfl

lemma lastState_cons (fs a : FS) (l : List FS) :
    lastState fs (a :: l) = lastState a l := by
  unfold lastState
  exact List.getLastD_cons fs a l

lemma lastState_append (fs : FS) (t1 t2 : List FS) :
    lastState fs (t1 ++ t2) = lastState (lastState fs t1) t2 := by
  induction t1 generalizing fs with
  | nil => simp [lastState]
  | cons a l ih =>
      rw [List.cons_append, lastState_cons, lastState_cons]
      exact ih a

/-- C1 (amended): an ingestion attempt that fails at acquisition, at
extraction/structural validation, or at the external parse leaves the
filesystem exactly as it was before the attempt: no permanent path exists
afterwards and no temporary artifact of the attempt (temp archive file,
temp extraction directory, staged directory) remains.  Definition-location
and archive-relocation failures are excluded from this guarantee — see
the counterexample for the former. -/
theorem c1_theorem (cfg : Config) (req : Request) (env : Env) (bid : String)
    (fs : FS) (e : Err) (bytes : String) (es : List (List String × EntryKind))
    (b diag : String) (apf : List String)
    (htmp : ["tmp"] ∈ fs.dirs)
    (htdn : normalComp env.tempdirName = true)
    (hfd : ∀ q ∈ fs.dirs, underPath ["tmp", env.tempdirName] q = false)
    (hff : ∀ x ∈ fs.files, underPath ["tmp", env.tempdirName] x.1 = false)
    (hesn : ∀ es', env.unpackResult = .ok es' → ∀ x ∈ es', normalPath x.1 = true)
    (hatp : fs.pathExists (cfg.file_server_root ++ [env.tempName]) = false)
    (hatpn : underPath ["tmp", env.tempdirName]
        (normPath (cfg.file_server_root ++ [env.tempName])) = false) :
    (save_file_locally req env (cfg.file_server_root ++ [env.tempName]) fs =
        (.error e, []) →
      (do_request cfg req env bid fs).1 = .error e ∧
      lastState fs (do_request cfg req env bid fs).2 = fs) ∧
    (save_file_locally req env (cfg.file_server_root ++ [env.tempName]) fs =
        (.ok (), [fs.writeFile (cfg.file_server_root ++ [env.tempName]) bytes]) →
      (extract_file_to_file_server env cfg.file_server_root
          (fs.writeFile (cfg.file_server_root ++ [env.tempName]) bytes)).1 =
        .error e →
      (do_request cfg req env bid fs).1 = .error e ∧
      lastState fs (do_request cfg req env bid fs).2 = fs) ∧
    (save_file_locally req env (cfg.file_server_root ++ [env.tempName]) fs =
        (.ok (), [fs.writeFile (cfg.file_server_root ++ [env.tempName]) bytes]) →
      env.unpackResult = .ok es →
      (((fs.writeFile (cfg.file_server_root ++ [env.tempName]) bytes).makedirs
          ["tmp", env.tempdirName]).addEntries ["tmp", env.tempdirName]
            es).listdir ["tmp", env.tempdirName] = [b] →
      (((fs.writeFile (cfg.file_server_root ++ [env.tempName]) bytes).makedirs
          ["tmp", env.tempdirName]).addEntries ["tmp", env.tempdirName]
            es).isDir (["tmp", env.tempdirName] ++ [b]) = true →
      normalComp b = true →
      normalComp (b ++ "-" ++ env.uuid) = true →
      normalPath cfg.file_server_root = true →
      underPath ["tmp", env.tempdirName]
        (cfg.file_server_root ++ [b ++ "-" ++ env.uuid]) = false →
      (∀ q ∈ fs.dirs,
        underPath (cfg.file_server_root ++ [b ++ "-" ++ env.uuid]) q = false) →
      (∀ x ∈ fs.files,
        underPath (cfg.file_server_root ++ [b ++ "-" ++ env.uuid]) x.1 = false) →
      underPath (cfg.file_server_root ++ [b ++ "-" ++ env.uuid])
        (normPath (cfg.file_server_root ++ [env.tempName])) = false →
      extract_application_file req cfg.file_server_root (b ++ "-" ++ env.uuid)
        (lastState (fs.writeFile (cfg.file_server_root ++ [env.tempName]) bytes)
          (extract_file_to_file_server env cfg.file_server_root
            (fs.writeFile (cfg.file_server_root ++ [env.tempName]) bytes)).2) =
        .ok apf →
      env.parseResult = .error diag →
      (do_request cfg req env bid fs).1 =
        .error (.invalidBlueprint (msgInvalidBlueprint diag)) ∧
      lastState fs (do_request cfg req env bid fs).2 = fs) := by
  have hatpFile : fs.isFile (cfg.file_server_root ++ [env.tempName]) = false := by
    have h := hatp
    simp only [FS.pathExists, Bool.or_eq_false_iff] at h
    exact h.2
  have hffA : ∀ x ∈ (fs.writeFile (cfg.file_server_root ++ [env.tempName])
      bytes).files, underPath ["tmp", env.tempdirName] x.1 = false := by
    intro x hx
    simp only [FS.writeFile] at hx
    rcases List.mem_cons.mp hx with rfl | hx'
    · exact hatpn
    · exact hff x (List.mem_of_mem_filter hx')
  have hExA : (fs.writeFile (cfg.file_server_root ++ [env.tempName])
      bytes).pathExists (cfg.file_server_root ++ [env.tempName]) = true := by
    simp [FS.pathExists, FS.isFile_writeFile_self]
  refine ⟨?_, ?_, ?_⟩
  · -- acquisition failure
    intro hsave
    have hrun : do_request cfg req env bid fs = (.error e, []) := by
      simp only [do_request, hsave, lastState_nil]
      simp [hatp]
    exact ⟨by rw [hrun], by rw [hrun]; rfl⟩
  · -- extraction failure
    intro hsave hext
    rcases hpair : extract_file_to_file_server env cfg.file_server_root
      (fs.writeFile (cfg.file_server_root ++ [env.tempName]) bytes) with ⟨r2, tr2⟩
    have hr2 : r2 = .error e := by rw [hpair] at hext; exact hext
    subst hr2
    have hrestore : lastState (fs.writeFile (cfg.file_server_root ++ [env.tempName])
        bytes) tr2 = fs.writeFile (cfg.file_server_root ++ [env.tempName]) bytes := by
      have h := extract_error_restore env cfg.file_server_root
        (fs.writeFile (cfg.file_server_root ++ [env.tempName]) bytes) e htmp htdn
        hfd hffA hesn (by rw [hpair])
      rw [hpair] at h
      exact h
    have hrun : do_request cfg req env bid fs =
        (.error e,
         ([fs.writeFile (cfg.file_server_root ++ [env.tempName]) bytes] ++ tr2) ++
          [(fs.writeFile (cfg.file_server_root ++ [env.tempName])
              bytes).removeFile (cfg.file_server_root ++ [env.tempName])]) := by
      simp only [do_request, hsave, lastState_singleton, hpair]
      rw [lastState_append, lastState_singleton, hrestore, if_pos hExA]
    constructor
    · rw [hrun]
    · rw [hrun, lastState_append, lastState_singleton,
        FS.removeFile_writeFile bytes hatpFile]
  · -- parse failure
    intro hsave hunp hlist hbdir hbn hgn hrootn hstgtd hsfd hsff hatpstg hloc hparse
    obtain ⟨hok, nd, nf, hBeq, hndu, hnfu, hstgmem⟩ :=
      extract_success_shape env cfg.file_server_root
        (fs.writeFile (cfg.file_server_root ++ [env.tempName]) bytes) es b
        htmp htdn hfd hffA hunp (hesn es hunp) hlist hbdir hbn hgn hrootn hstgtd
    rcases hpair : extract_file_to_file_server env cfg.file_server_root
      (fs.writeFile (cfg.file_server_root ++ [env.tempName]) bytes) with ⟨r2, tr2⟩
    have hr2 : r2 = .ok (b ++ "-" ++ env.uuid) := by rw [hpair] at hok; exact hok
    subst hr2
    rw [hpair] at hBeq hloc
    have hnstg : normPath (cfg.file_server_root ++ [b ++ "-" ++ env.uuid]) =
        cfg.file_server_root ++ [b ++ "-" ++ env.uuid] :=
      normPath_append_eq hrootn (normalPath_singleton hgn)
    have hrest : (lastState (fs.writeFile (cfg.file_server_root ++ [env.tempName])
        bytes) tr2).rmtree (cfg.file_server_root ++ [b ++ "-" ++ env.uuid]) =
        fs.writeFile (cfg.file_server_root ++ [env.tempName]) bytes := by
      rw [hBeq]
      refine FS.rmtree_restore hnstg ⟨nd, rfl, hndu⟩ ⟨nf, rfl, hnfu⟩ hsfd ?_
      intro x hx
      simp only [FS.writeFile] at hx
      rcases List.mem_cons.mp hx with rfl | hx'
      · exact hatpstg
      · exact hsff x (List.mem_of_mem_filter hx')
    have hprep : prepare_and_submit_blueprint cfg req env cfg.file_server_root
        (b ++ "-" ++ env.uuid) bid
        (lastState (fs.writeFile (cfg.file_server_root ++ [env.tempName]) bytes)
          tr2) =
        (.error (.invalidBlueprint (msgInvalidBlueprint diag)),
         [(lastState (fs.writeFile (cfg.file_server_root ++ [env.tempName]) bytes)
            tr2).rmtree (cfg.file_server_root ++ [b ++ "-" ++ env.uuid])]) := by
      simp only [prepare_and_submit_blueprint, hloc, hparse]
    have hrun : do_request cfg req env bid fs =
        (.error (.invalidBlueprint (msgInvalidBlueprint diag)),
         [fs.writeFile (cfg.file_server_root ++ [env.tempName]) bytes] ++ tr2 ++
           [fs.writeFile (cfg.file_server_root ++ [env.tempName]) bytes] ++
           [(fs.writeFile (cfg.file_server_root ++ [env.tempName])
               bytes).removeFile (cfg.file_server_root ++ [env.tempName])]) := by
      simp only [do_request, hsave, hpair, lastState_singleton, hprep]
      rw [hrest, lastState_append, lastState_singleton, if_pos hExA]
    constructor
    · rw [hrun]
    · rw [hrun, lastState_append, lastState_singleton,
        FS.removeFile_writeFile bytes hatpFile]

/-- Witness for `c1_theorem`: a concrete parse-failure ingestion restores
the initial store exactly. -/
theorem c1_witness :
    (do_request cfg0 reqBody envParseFail "b1" fs0).1 =
      .error (.invalidBlueprint (msgInvalidBlueprint "bad dsl")) ∧
    lastState fs0 (do_request cfg0 reqBody envParseFail "b1" fs0).2 = fs0 :=
  (c1_theorem cfg0 reqBody envParseFail "b1" fs0 (.ioError "unused") "zipbytes"
      [(["app"], .dir), (["app", "blueprint.yaml"], .file "tosca")]
      "app" "bad dsl" ["app-u1", "blueprint.yaml"]
      (by decide) (by decide) (by decide) (by decide)
      (by intro es' h; cases h; decide)
      (by decide) (by decide)).2.2
    rfl rfl (by decide) (by decide) (by decide) (by decide) (by decide)
    (by decide) (by decide) (by decide) (by decide) rfl rfl

lemma FS.isFile_move_of_not_under {fs : FS} {src dst p : List String}
    (h : fs.isFile p = true)
    (hn : underPath (normPath src) (normPath p) = false) :
    (fs.move src dst).isFile p = true := by
  simp only [FS.isFile, FS.move, List.any_eq_true] at h ⊢
  obtain ⟨e, he, heq⟩ := h
  refine ⟨(movePath (normPath src) (normPath dst) e.1, e.2),
    List.mem_map.mpr ⟨e, he, rfl⟩, ?_⟩
  have he1 : e.1 = normPath p := by simpa using heq
  rw [he1]
  simp [movePath_eq_of_not_under hn]

lemma zipPlugins_dirs (env : Env) (pd : List String) :
    ∀ (ds : List String) (fs : FS),
      (lastState fs (zipPlugins env pd ds fs).2).dirs = fs.dirs := by
  intro ds
  induction ds with
  | nil => intro fs; rfl
  | cons d rest ih =>
      intro fs
      unfold zipPlugins
      by_cases hz : env.zipOk d = true
      · simp only [hz, if_true]
        rw [lastState_cons]
        rw [ih (fs.writeFile (pd ++ [d ++ ".zip"]) ("zip-of-" ++ d))]
        rfl
      · simp only [hz, if_false]
        rfl

lemma zipPlugins_isFile (env : Env) (pd p : List String) :
    ∀ (ds : List String) (fs : FS), fs.isFile p = true →
      (lastState fs (zipPlugins env pd ds fs).2).isFile p = true := by
  intro ds
  induction ds with
  | nil => intro fs h; exact h
  | cons d rest ih =>
      intro fs h
      unfold zipPlugins
      by_cases hz : env.zipOk d = true
      · simp only [hz, if_true]
        rw [lastState_cons]
        exact ih _ (FS.isFile_writeFile_mono h _ _)
      · simp only [hz, if_false]
        exact h

lemma process_plugins_dirs (env : Env) (root : List String) (bid : String)
    (fs : FS) :
    (lastState fs (process_plugins env root bid fs).2).dirs = fs.dirs := by
  unfold process_plugins
  by_cases hd : fs.isDir (root ++ ["blueprints", bid, "plugins"]) = true
  · simp only [hd, Bool.not_true, if_false]
    exact zipPlugins_dirs env _ _ fs
  · simp only [Bool.not_eq_true] at hd
    simp only [hd, Bool.not_false, if_true]
    rfl

lemma process_plugins_isFile (env : Env) (root : List String) (bid : String)
    (fs : FS) (p : List String) (h : fs.isFile p = true) :
    (lastState fs (process_plugins env root bid fs).2).isFile p = true := by
  unfold process_plugins
  by_cases hd : fs.isDir (root ++ ["blueprints", bid, "plugins"]) = true
  · simp only [hd, Bool.not_true, if_false]
    exact zipPlugins_isFile env _ p _ fs h
  · simp only [Bool.not_eq_true] at hd
    simp only [hd, Bool.not_false, if_true]
    exact h

/-- C6 (amended): the temp archive file is not deleted after step 2 — it
is consumed by step 7. `_move_archive_to_uploaded_blueprints_dir` raises
`RuntimeError` when the archive is missing at its temp path; when the
archive is present it is moved (not deleted) to the permanent
`uploaded-blueprints/<id>/<id>.<ext>` location, after which the temp path
no longer holds a file. -/
theorem c6_theorem (cfg : Config) (env : Env) (bid : String)
    (root archive_path : List String) (fs fs' : FS)
    (hmiss : fs.pathExists archive_path = false)
    (hfile : fs'.isFile archive_path = true)
    (hne : normPath (root ++ [cfg.file_server_uploaded_blueprints_folder, bid] ++
        [bid ++ "." ++ env.archiveType]) ≠ normPath archive_path)
    (hstrict : ∀ e ∈ fs'.files,
      underPath (normPath archive_path) e.1 = true →
        e.1 = normPath archive_path) :
    move_archive_to_uploaded_blueprints_dir cfg env bid root archive_path fs =
      (.error (.runtimeError MSG_ARCHIVE_GONE), []) ∧
    (move_archive_to_uploaded_blueprints_dir cfg env bid root archive_path fs').1 =
      .ok () ∧
    (lastState fs' (move_archive_to_uploaded_blueprints_dir cfg env bid root
        archive_path fs').2).isFile
      (root ++ [cfg.file_server_uploaded_blueprints_folder, bid] ++
        [bid ++ "." ++ env.archiveType]) = true ∧
    (lastState fs' (move_archive_to_uploaded_blueprints_dir cfg env bid root
        archive_path fs').2).isFile archive_path = false := by
  have hEx' : fs'.pathExists archive_path = true := by
    simp [FS.pathExists, hfile]
  have hrun : move_archive_to_uploaded_blueprints_dir cfg env bid root
      archive_path fs' =
      (.ok (),
       [fs'.makedirs (root ++ [cfg.file_server_uploaded_blueprints_folder, bid]),
        (fs'.makedirs
          (root ++ [cfg.file_server_uploaded_blueprints_folder, bid])).move
          archive_path
          (root ++ [cfg.file_server_uploaded_blueprints_folder, bid] ++
            [bid ++ "." ++ env.archiveType])]) := by
    unfold move_archive_to_uploaded_blueprints_dir
    rw [hEx']
    rfl
  refine ⟨?_, ?_, ?_, ?_⟩
  · unfold move_archive_to_uploaded_blueprints_dir
    rw [hmiss]
    rfl
  · rw [hrun]
  · rw [hrun]
    rw [lastState_cons, lastState_singleton]
    simp only [FS.isFile, FS.move, List.any_eq_true]
    have hfile' := hfile
    simp only [FS.isFile, List.any_eq_true] at hfile'
    obtain ⟨e, he, heq⟩ := hfile'
    have he1 : e.1 = normPath archive_path := by simpa using heq
    refine ⟨(movePath (normPath archive_path)
        (normPath (root ++ [cfg.file_server_uploaded_blueprints_folder, bid] ++
          [bid ++ "." ++ env.archiveType])) e.1, e.2),
      List.mem_map.mpr ⟨e, ?_, rfl⟩, ?_⟩
    · exact he
    · rw [he1, movePath_self]
      simp
  · rw [hrun]
    rw [lastState_cons, lastState_singleton]
    simp only [FS.isFile, FS.move]
    rw [List.any_eq_false]
    intro x hx
    obtain ⟨e, he, rfl⟩ := List.mem_map.mp hx
    by_cases hu : underPath (normPath archive_path) e.1 = true
    · have he1 : e.1 = normPath archive_path := hstrict e he hu
      rw [he1, movePath_self]
      simpa using hne
    · rw [movePath_eq_of_not_under (by simpa using hu)]
      have hne2 : e.1 ≠ normPath archive_path := by
        intro hEq
        rw [hEq] at hu
        exact hu (underPath_self _)
      simp [hne2]

/-- Witness for `c6_theorem` at concrete stores with and without the
archive file. -/
theorem c6_witness :
    move_archive_to_uploaded_blueprints_dir cfg0 env0 "b1" ["root"]
      ["root", "tmpA"] fs0 = (.error (.runtimeError MSG_ARCHIVE_GONE), []) ∧
    (move_archive_to_uploaded_blueprints_dir cfg0 env0 "b1" ["root"]
      ["root", "tmpA"] fsC6).1 = .ok () ∧
    (lastState fsC6 (move_archive_to_uploaded_blueprints_dir cfg0 env0 "b1"
        ["root"] ["root", "tmpA"] fsC6).2).isFile
      (["root"] ++ ["uploaded-blueprints", "b1"] ++ ["b1.zip"]) = true ∧
    (lastState fsC6 (move_archive_to_uploaded_blueprints_dir cfg0 env0 "b1"
        ["root"] ["root", "tmpA"] fsC6).2).isFile ["root", "tmpA"] = false :=
  c6_theorem cfg0 env0 "b1" ["root"] ["root", "tmpA"] fs0 fsC6
    (by decide) (by decide) (by decide) (by decide)

/-- C7 (amended): a failure during plugin packaging does fail the upload
(the exception propagates — only `DslParseException` is caught), but the
blueprint's permanent placement is never rolled back: after the failed
run, the permanent `blueprints/<id>` directory is in place. -/
theorem c7_theorem (cfg : Config) (req : Request) (env : Env) (bid : String)
    (fs : FS) (e : Err) (bytes : String) (es : List (List String × EntryKind))
    (b bid' : String) (apf : List String)
    (htmp : ["tmp"] ∈ fs.dirs)
    (htdn : normalComp env.tempdirName = true)
    (hfd : ∀ q ∈ fs.dirs, underPath ["tmp", env.tempdirName] q = false)
    (hff : ∀ x ∈ fs.files, underPath ["tmp", env.tempdirName] x.1 = false)
    (hatp : fs.pathExists (cfg.file_server_root ++ [env.tempName]) = false)
    (hatpn : underPath ["tmp", env.tempdirName]
        (normPath (cfg.file_server_root ++ [env.tempName])) = false)
    (hsave : save_file_locally req env (cfg.file_server_root ++ [env.tempName]) fs =
        (.ok (), [fs.writeFile (cfg.file_server_root ++ [env.tempName]) bytes]))
    (hunp : env.unpackResult = .ok es)
    (hesn : ∀ x ∈ es, normalPath x.1 = true)
    (hlist : (((fs.writeFile (cfg.file_server_root ++ [env.tempName])
        bytes).makedirs ["tmp", env.tempdirName]).addEntries
          ["tmp", env.tempdirName] es).listdir ["tmp", env.tempdirName] = [b])
    (hbdir : (((fs.writeFile (cfg.file_server_root ++ [env.tempName])
        bytes).makedirs ["tmp", env.tempdirName]).addEntries
          ["tmp", env.tempdirName] es).isDir
            (["tmp", env.tempdirName] ++ [b]) = true)
    (hbn : normalComp b = true)
    (hgn : normalComp (b ++ "-" ++ env.uuid) = true)
    (hrootn : normalPath cfg.file_server_root = true)
    (hstgtd : underPath ["tmp", env.tempdirName]
        (cfg.file_server_root ++ [b ++ "-" ++ env.uuid]) = false)
    (hatpstg : underPath (cfg.file_server_root ++ [b ++ "-" ++ env.uuid])
        (normPath (cfg.file_server_root ++ [env.tempName])) = false)
    (hbfn : normalPath [cfg.file_server_blueprints_folder, bid'] = true)
    (hloc : extract_application_file req cfg.file_server_root (b ++ "-" ++ env.uuid)
        (lastState (fs.writeFile (cfg.file_server_root ++ [env.tempName]) bytes)
          (extract_file_to_file_server env cfg.file_server_root
            (fs.writeFile (cfg.file_server_root ++ [env.tempName]) bytes)).2) =
        .ok apf)
    (hparse : env.parseResult = .ok bid')
    (hproc : (process_plugins env cfg.file_server_root bid'
        ((lastState (fs.writeFile (cfg.file_server_root ++ [env.tempName]) bytes)
          (extract_file_to_file_server env cfg.file_server_root
            (fs.writeFile (cfg.file_server_root ++ [env.tempName]) bytes)).2).move
          (cfg.file_server_root ++ [b ++ "-" ++ env.uuid])
          (cfg.file_server_root ++
            [cfg.file_server_blueprints_folder, bid']))).1 = .error e) :
    (do_request cfg req env bid fs).1 = .error e ∧
    (lastState fs (do_request cfg req env bid fs).2).isDir
      (cfg.file_server_root ++ [cfg.file_server_blueprints_folder, bid']) =
      true := by
  have hffA : ∀ x ∈ (fs.writeFile (cfg.file_server_root ++ [env.tempName])
      bytes).files, underPath ["tmp", env.tempdirName] x.1 = false := by
    intro x hx
    simp only [FS.writeFile] at hx
    rcases List.mem_cons.mp hx with rfl | hx'
    · exact hatpn
    · exact hff x (List.mem_of_mem_filter hx')
  obtain ⟨hok, nd, nf, hBeq, hndu, hnfu, hstgmem⟩ :=
    extract_success_shape env cfg.file_server_root
      (fs.writeFile (cfg.file_server_root ++ [env.tempName]) bytes) es b
      htmp htdn hfd hffA hunp hesn hlist hbdir hbn hgn hrootn hstgtd
  rcases hpair : extract_file_to_file_server env cfg.file_server_root
    (fs.writeFile (cfg.file_server_root ++ [env.tempName]) bytes) with ⟨r2, tr2⟩
  have hr2 : r2 = .ok (b ++ "-" ++ env.uuid) := by rw [hpair] at hok; exact hok
  subst hr2
  rw [hpair] at hBeq hloc hproc
  have hnstg : normPath (cfg.file_server_root ++ [b ++ "-" ++ env.uuid]) =
      cfg.file_server_root ++ [b ++ "-" ++ env.uuid] :=
    normPath_append_eq hrootn (normalPath_singleton hgn)
  have hnbf : normPath (cfg.file_server_root ++
      [cfg.file_server_blueprints_folder, bid']) =
      cfg.file_server_root ++ [cfg.file_server_blueprints_folder, bid'] :=
    normPath_append_eq hrootn hbfn
  have hBdirs : (lastState (fs.writeFile (cfg.file_server_root ++ [env.tempName])
      bytes) tr2).dirs =
      (fs.writeFile (cfg.file_server_root ++ [env.tempName]) bytes).dirs ++ nd := by
    rw [hBeq]
  have hBfiles : (lastState (fs.writeFile (cfg.file_server_root ++ [env.tempName])
      bytes) tr2).files =
      nf ++ (fs.writeFile (cfg.file_server_root ++ [env.tempName]) bytes).files := by
    rw [hBeq]
  -- the permanent blueprint directory appears through the move
  have hMdir : ((lastState (fs.writeFile (cfg.file_server_root ++ [env.tempName])
      bytes) tr2).move
        (cfg.file_server_root ++ [b ++ "-" ++ env.uuid])
        (cfg.file_server_root ++ [cfg.file_server_blueprints_folder, bid'])).isDir
      (cfg.file_server_root ++ [cfg.file_server_blueprints_folder, bid']) =
      true := by
    simp only [FS.isDir, FS.move, hnstg, hnbf, List.elem_eq_mem, decide_eq_true_eq]
    refine List.mem_map.mpr ⟨cfg.file_server_root ++ [b ++ "-" ++ env.uuid],
      ?_, movePath_self _ _⟩
    rw [hBdirs]
    exact hstgmem
  -- the archive file survives the move and plugin processing
  have hBfile : (lastState (fs.writeFile (cfg.file_server_root ++ [env.tempName])
      bytes) tr2).isFile (cfg.file_server_root ++ [env.tempName]) = true := by
    simp only [FS.isFile, hBfiles, List.any_append, Bool.or_eq_true]
    right
    have := FS.isFile_writeFile_self fs (cfg.file_server_root ++ [env.tempName]) bytes
    simpa [FS.isFile] using this
  have hMfile : ((lastState (fs.writeFile (cfg.file_server_root ++ [env.tempName])
      bytes) tr2).move
        (cfg.file_server_root ++ [b ++ "-" ++ env.uuid])
        (cfg.file_server_root ++ [cfg.file_server_blueprints_folder, bid'])).isFile
      (cfg.file_server_root ++ [env.tempName]) = true := by
    refine FS.isFile_move_of_not_under hBfile ?_
    rw [hnstg]
    exact hatpstg
  rcases hppair : process_plugins env cfg.file_server_root bid'
    ((lastState (fs.writeFile (cfg.file_server_root ++ [env.tempName]) bytes)
      tr2).move (cfg.file_server_root ++ [b ++ "-" ++ env.uuid])
      (cfg.file_server_root ++ [cfg.file_server_blueprints_folder, bid']))
    with ⟨rp, trP⟩
  have hrp : rp = .error e := by rw [hppair] at hproc; exact hproc
  subst hrp
  have hPdirs := process_plugins_dirs env cfg.file_server_root bid'
    ((lastState (fs.writeFile (cfg.file_server_root ++ [env.tempName]) bytes)
      tr2).move (cfg.file_server_root ++ [b ++ "-" ++ env.uuid])
      (cfg.file_server_root ++ [cfg.file_server_blueprints_folder, bid']))
  have hPfile := process_plugins_isFile env cfg.file_server_root bid'
    ((lastState (fs.writeFile (cfg.file_server_root ++ [env.tempName]) bytes)
      tr2).move (cfg.file_server_root ++ [b ++ "-" ++ env.uuid])
      (cfg.file_server_root ++ [cfg.file_server_blueprints_folder, bid']))
    (cfg.file_server_root ++ [env.tempName]) hMfile
  rw [hppair] at hPdirs hPfile
  have hprep : prepare_and_submit_blueprint cfg req env cfg.file_server_root
      (b ++ "-" ++ env.uuid) bid
      (lastState (fs.writeFile (cfg.file_server_root ++ [env.tempName]) bytes)
        tr2) =
      (.error e,
       ((lastState (fs.writeFile (cfg.file_server_root ++ [env.tempName]) bytes)
          tr2).move (cfg.file_server_root ++ [b ++ "-" ++ env.uuid])
          (cfg.file_server_root ++ [cfg.file_server_blueprints_folder, bid'])) ::
        trP) := by
    simp only [prepare_and_submit_blueprint, hloc, hparse, hppair]
  have hEndEq : lastState fs
      (([fs.writeFile (cfg.file_server_root ++ [env.tempName]) bytes] ++ tr2) ++
        ((lastState (fs.writeFile (cfg.file_server_root ++ [env.tempName]) bytes)
          tr2).move (cfg.file_server_root ++ [b ++ "-" ++ env.uuid])
          (cfg.file_server_root ++ [cfg.file_server_blueprints_folder, bid'])) ::
          trP) =
      lastState ((lastState (fs.writeFile (cfg.file_server_root ++ [env.tempName])
        bytes) tr2).move (cfg.file_server_root ++ [b ++ "-" ++ env.uuid])
        (cfg.file_server_root ++ [cfg.file_server_blueprints_folder, bid'])) trP := by
    rw [lastState_append, lastState_append, lastState_singleton, lastState_cons]
  have hEx : (lastState ((lastState (fs.writeFile
      (cfg.file_server_root ++ [env.tempName]) bytes) tr2).move
        (cfg.file_server_root ++ [b ++ "-" ++ env.uuid])
        (cfg.file_server_root ++ [cfg.file_server_blueprints_folder, bid']))
      trP).pathExists (cfg.file_server_root ++ [env.tempName]) = true := by
    simp [FS.pathExists, hPfile]
  have hrun : do_request cfg req env bid fs =
      (.error e,
       (([fs.writeFile (cfg.file_server_root ++ [env.tempName]) bytes] ++ tr2) ++
        ((lastState (fs.writeFile (cfg.file_server_root ++ [env.tempName]) bytes)
          tr2).move (cfg.file_server_root ++ [b ++ "-" ++ env.uuid])
          (cfg.file_server_root ++ [cfg.file_server_blueprints_folder, bid'])) ::
          trP) ++
        [(lastState ((lastState (fs.writeFile
            (cfg.file_server_root ++ [env.tempName]) bytes) tr2).move
            (cfg.file_server_root ++ [b ++ "-" ++ env.uuid])
            (cfg.file_server_root ++ [cfg.file_server_blueprints_folder, bid']))
          trP).removeFile (cfg.file_server_root ++ [env.tempName])]) := by
    simp only [do_request, hsave, hpair, lastState_singleton, hprep]
    rw [hEndEq, if_pos hEx]
  constructor
  · rw [hrun]
  · rw [hrun, lastState_append, lastState_singleton]
    show ((lastState _ trP).removeFile _).isDir _ = true
    simp only [FS.isDir, FS.dirs_removeFile]
    rw [hnbf]
    simp only [FS.isDir, hnbf, List.elem_eq_mem, decide_eq_true_eq] at hMdir
    rw [hPdirs]
    simpa using hMdir

/-- Witness for `c7_theorem`: a concrete run whose plugin zipping fails
still leaves `blueprints/bid` in place while the upload errors. -/
theorem c7_witness :
    (do_request cfg0 reqBody envZipFail "bid" fs0).1 =
      .error (.ioError "zip failed for p1") ∧
    (lastState fs0 (do_request cfg0 reqBody envZipFail "bid" fs0).2).isDir
      (["root"] ++ ["blueprints", "bid"]) = true :=
  c7_theorem cfg0 reqBody envZipFail "bid" fs0 (.ioError "zip failed for p1")
    "zipbytes"
    [(["app"], .dir), (["app", "blueprint.yaml"], .file "tosca"),
     (["app", "plugins"], .dir), (["app", "plugins", "p1"], .dir),
     (["app", "plugins", "p1", "setup.py"], .file "s")]
    "app" "bid" ["app-u1", "blueprint.yaml"]
    (by decide) (by decide) (by decide) (by decide) (by decide) (by decide)
    rfl rfl (by decide) (by decide) (by decide) (by decide) (by decide)
    (by decide) (by decide) (by decide) (by decide) rfl rfl rfl

/-- C2 (amended): the permanent `blueprints/<id>` path comes into
existence through the single step-5 move — it is the first snapshot of
`_prepare_and_submit_blueprint`, and before it nothing exists at that
permanent path — whereas `uploaded-blueprints/<id>` is created empty by
`makedirs` and populated only by a separate second move, so that
permanent path has an observable empty intermediate state. -/
theorem c2_theorem (cfg : Config) (req : Request) (env : Env)
    (root : List String) (adir bid bid' : String) (apf : List String)
    (fs fs' : FS) (archive_path : List String)
    (hloc : extract_application_file req root adir fs = .ok apf)
    (hparse : env.parseResult = .ok bid')
    (hstaged : (root ++ [adir]) ∈ fs.dirs)
    (hadirn : normPath (root ++ [adir]) = root ++ [adir])
    (hbfn : normPath (root ++ [cfg.file_server_blueprints_folder, bid']) =
      root ++ [cfg.file_server_blueprints_folder, bid'])
    (hfreshd : ∀ q ∈ fs.dirs,
      underPath (root ++ [cfg.file_server_blueprints_folder, bid']) q = false)
    (hfreshf : ∀ x ∈ fs.files,
      underPath (root ++ [cfg.file_server_blueprints_folder, bid']) x.1 = false)
    (hfile : fs'.isFile archive_path = true)
    (hupfresh : fs'.isFile (root ++
      [cfg.file_server_uploaded_blueprints_folder, bid] ++
      [bid ++ "." ++ env.archiveType]) = false)
    (hupn : normPath (root ++ [cfg.file_server_uploaded_blueprints_folder, bid]) =
      root ++ [cfg.file_server_uploaded_blueprints_folder, bid]) :
    ((prepare_and_submit_blueprint cfg req env root adir bid' fs).2.head? =
      some (fs.move (root ++ [adir])
        (root ++ [cfg.file_server_blueprints_folder, bid']))) ∧
    fs.pathExists (root ++ [cfg.file_server_blueprints_folder, bid']) = false ∧
    (fs.move (root ++ [adir])
      (root ++ [cfg.file_server_blueprints_folder, bid'])).isDir
      (root ++ [cfg.file_server_blueprints_folder, bid']) = true ∧
    ((move_archive_to_uploaded_blueprints_dir cfg env bid root archive_path
        fs').2 =
      [fs'.makedirs (root ++ [cfg.file_server_uploaded_blueprints_folder, bid]),
       (fs'.makedirs (root ++
          [cfg.file_server_uploaded_blueprints_folder, bid])).move archive_path
        (root ++ [cfg.file_server_uploaded_blueprints_folder, bid] ++
          [bid ++ "." ++ env.archiveType])]) ∧
    (fs'.makedirs (root ++ [cfg.file_server_uploaded_blueprints_folder,
      bid])).isDir (root ++ [cfg.file_server_uploaded_blueprints_folder, bid]) =
      true ∧
    (fs'.makedirs (root ++ [cfg.file_server_uploaded_blueprints_folder,
      bid])).isFile (root ++ [cfg.file_server_uploaded_blueprints_folder, bid] ++
        [bid ++ "." ++ env.archiveType]) = false := by
  have hEx' : fs'.pathExists archive_path = true := by
    simp [FS.pathExists, hfile]
  refine ⟨?_, ?_, ?_, ?_, ?_, ?_⟩
  · rcases hpp : process_plugins env root bid'
      (fs.move (root ++ [adir])
        (root ++ [cfg.file_server_blueprints_folder, bid'])) with ⟨rp, trp⟩
    cases rp with
    | error ep => simp only [prepare_and_submit_blueprint, hloc, hparse, hpp,
        List.head?_cons]
    | ok u => simp only [prepare_and_submit_blueprint, hloc, hparse, hpp,
        List.head?_cons]
  · simp only [FS.pathExists, FS.isDir, FS.isFile, Bool.or_eq_false_iff]
    constructor
    · simp only [List.elem_eq_mem, decide_eq_false_iff_not]
      intro hmem
      have h := hfreshd _ hmem
      rw [hbfn, underPath_self] at h
      exact absurd h (by simp)
    · rw [List.any_eq_false]
      intro x hx hbe
      have hx1 : x.1 = normPath (root ++ [cfg.file_server_blueprints_folder, bid']) := by
        simpa using hbe
      have h := hfreshf x hx
      rw [hx1, hbfn, underPath_self] at h
      exact absurd h (by simp)
  · simp only [FS.isDir, FS.move, hadirn, hbfn, List.elem_eq_mem,
      decide_eq_true_eq]
    exact List.mem_map.mpr ⟨root ++ [adir], hstaged, movePath_self _ _⟩
  · unfold move_archive_to_uploaded_blueprints_dir
    rw [hEx']
    rfl
  · have hne : normPath (root ++ [cfg.file_server_uploaded_blueprints_folder,
        bid]) ≠ [] := by
      rw [hupn]
      simp
    have := fs'.self_mem_dirs_makedirs hne
    rw [hupn] at this
    simp only [FS.isDir, hupn, List.elem_eq_mem, decide_eq_true_eq]
    rw [← hupn]
    rw [hupn]
    exact this
  · exact hupfresh

/-- Witness for `c2_theorem` at concrete staged and archive stores. -/
theorem c2_witness :
    ((prepare_and_submit_blueprint cfg0 reqBody envGood ["root"] "app-u1" "bid"
        fsC5).2.head? =
      some (fsC5.move (["root"] ++ ["app-u1"])
        (["root"] ++ ["blueprints", "bid"]))) ∧
    fsC5.pathExists (["root"] ++ ["blueprints", "bid"]) = false ∧
    (fsC5.move (["root"] ++ ["app-u1"])
      (["root"] ++ ["blueprints", "bid"])).isDir
      (["root"] ++ ["blueprints", "bid"]) = true ∧
    ((move_archive_to_uploaded_blueprints_dir cfg0 envGood "b1" ["root"]
        ["root", "tmpA"] fsC6).2 =
      [fsC6.makedirs (["root"] ++ ["uploaded-blueprints", "b1"]),
       (fsC6.makedirs (["root"] ++ ["uploaded-blueprints", "b1"])).move
        ["root", "tmpA"]
        (["root"] ++ ["uploaded-blueprints", "b1"] ++ ["b1.zip"])]) ∧
    (fsC6.makedirs (["root"] ++ ["uploaded-blueprints", "b1"])).isDir
      (["root"] ++ ["uploaded-blueprints", "b1"]) = true ∧
    (fsC6.makedirs (["root"] ++ ["uploaded-blueprints", "b1"])).isFile
      (["root"] ++ ["uploaded-blueprints", "b1"] ++ ["b1.zip"]) = false :=
  c2_theorem cfg0 reqBody envGood ["root"] "app-u1" "b1" "bid"
    ["app-u1", "blueprint.yaml"] fsC5 fsC6 ["root", "tmpA"]
    rfl rfl (by decide) (by decide) (by decide) (by decide) (by decide)
    (by decide) (by decide) (by decide)

/-- Head-refined variant of `makedirs_shape`: when every prefix of `td` is
already present, what `makedirs (td ++ x)` adds lies below `td` and has
the head of `x` as its component right below `td`. -/
lemma FS.makedirs_shape_head (A : FS) {t x : List String} {d : String}
    (hfull : normPath (t ++ x) = t ++ x)
    (hhead : x.head? = some d ∨ x = [])
    (hpre : ∀ pre ∈ prefixesOf t, pre ∈ A.dirs) :
    ∃ nd, (A.makedirs (t ++ x)).dirs = A.dirs ++ nd ∧
      ∀ q ∈ nd, underPath t q = true ∧ q.get? t.length = some d := by
  refine ⟨(prefixesOf (normPath (t ++ x))).filter
    (fun q => !(A.dirs.contains q)), rfl, ?_⟩
  intro q hq
  rw [List.mem_filter] at hq
  obtain ⟨hq1, hq2⟩ := hq
  have hq2' : q ∉ A.dirs := by simpa using hq2
  rw [hfull] at hq1
  simp only [prefixesOf, List.mem_map, List.mem_range] at hq1
  obtain ⟨i, hi, hqe⟩ := hq1
  by_cases hk : i + 1 ≤ t.length
  · exact absurd (hpre q (by
      simp only [prefixesOf, List.mem_map, List.mem_range]
      exact ⟨i, by omega, by rw [← hqe, List.take_append_of_le_length hk]⟩)) hq2'
  · have hx : x ≠ [] := by
      intro h
      subst h
      simp only [List.append_nil, List.length_append, List.length_nil] at hi
      omega
    have hd : x.head? = some d := by
      rcases hhead with h | h
      · exact h
      · exact absurd h hx
    have hlt : t.length < i + 1 := by omega
    constructor
    · rw [← hqe]
      unfold underPath
      rw [List.take_take, min_eq_left (by omega), List.take_left]
      simp
    · rw [← hqe]
      have h1 : ((t ++ x).take (i + 1)).get? t.length =
          (t ++ x).get? t.length := by
        simp [List.get?_eq_getElem?, List.getElem?_take, hlt]
      have h2 : (t ++ x).get? t.length = x.get? 0 := by
        simp [List.get?_eq_getElem?, List.getElem?_append_right]
      have h3 : x.get? 0 = some d := by
        cases x with
        | nil => exact absurd rfl hx
        | cons a r => simpa using hd
      rw [h1, h2, h3]

/-- Head-refined variant of `addEntries_shape`: every directory or file
added while unpacking an archive whose entries all start with the
component `d` carries `d` right below the unpack root. -/
lemma FS.addEntries_shape_head (td : List String) (fsO : FS) {d : String}
    (es : List (List String × EntryKind))
    (hOf : ∀ e ∈ fsO.files, underPath td e.1 = false)
    (htdn : normalPath td = true)
    (hesn : ∀ e ∈ es, normalPath e.1 = true)
    (hheads : ∀ e ∈ es, e.1.head? = some d) :
    ∀ (A : FS) (nf0 : List (List String × String)),
      (∀ pre ∈ prefixesOf td, pre ∈ A.dirs) →
      A.files = nf0 ++ fsO.files →
      (∀ x ∈ nf0, underPath td x.1 = true ∧ x.1.get? td.length = some d) →
      ∃ nd nf, (A.addEntries td es).dirs = A.dirs ++ nd ∧
        (∀ q ∈ nd, underPath td q = true ∧ q.get? td.length = some d) ∧
        (A.addEntries td es).files = nf ++ fsO.files ∧
        (∀ x ∈ nf, underPath td x.1 = true ∧ x.1.get? td.length = some d) := by
  induction es with
  | nil =>
      intro A nf0 hcov hfe hfu
      exact ⟨[], nf0, by simp [FS.addEntries], by simp,
        by simpa [FS.addEntries] using hfe, hfu⟩
  | cons e es ih =>
      intro A nf0 hcov hfe hfu
      have heN : normalPath e.1 = true := hesn e (by simp)
      have heH : e.1.head? = some d := hheads e (by simp)
      have heNE : e.1 ≠ [] := by
        intro h
        rw [h] at heH
        simp at heH
      have hesn' : ∀ x ∈ es, normalPath x.1 = true :=
        fun x hx => hesn x (by simp [hx])
      have hheads' : ∀ x ∈ es, x.1.head? = some d :=
        fun x hx => hheads x (by simp [hx])
      have hstep : (A.addEntries td (e :: es)) =
          ((A.addEntry td e).addEntries td es) := by
        simp [FS.addEntries]
      cases he2 : e.2 with
      | dir =>
          have hA' : A.addEntry td e = A.makedirs (td ++ e.1) := by
            unfold FS.addEntry
            rw [he2]
          obtain ⟨nd0, hD, hDu⟩ := A.makedirs_shape_head (t := td) (x := e.1)
            (d := d) (normPath_append_eq htdn heN) (.inl heH) hcov
          have hcov' : ∀ pre ∈ prefixesOf td, pre ∈ (A.addEntry td e).dirs := by
            intro pre hp
            rw [hA', hD]
            exact List.mem_append_left _ (hcov pre hp)
          have hfe' : (A.addEntry td e).files = nf0 ++ fsO.files := by
            rw [hA']
            simpa [FS.files_makedirs] using hfe
          obtain ⟨nd1, nf1, h1, h2, h3, h4⟩ :=
            ih hesn' hheads' (A.addEntry td e) nf0 hcov' hfe' hfu
          refine ⟨nd0 ++ nd1, nf1, ?_, ?_, ?_, h4⟩
          · rw [← hstep] at h1
            rw [h1, hA', hD, List.append_assoc]
          · intro q hq
            rcases List.mem_append.mp hq with h | h
            · exact hDu q h
            · exact h2 q h
          · rw [← hstep] at h3
            exact h3
      | file c =>
          have hA' : A.addEntry td e =
              (A.makedirs (td ++ e.1.dropLast)).writeFile (td ++ e.1) c := by
            unfold FS.addEntry
            rw [he2]
          have hnp : normPath (td ++ e.1) = td ++ e.1 :=
            normPath_append_eq htdn heN
          have hnpu : underPath td (normPath (td ++ e.1)) = true := by
            rw [hnp]; exact underPath_append td e.1
          have hdlh : e.1.dropLast.head? = some d ∨ e.1.dropLast = [] := by
            cases h1 : e.1 with
            | nil => exact absurd h1 heNE
            | cons a t =>
                cases t with
                | nil => right; simp
                | cons b t' =>
                    left
                    rw [h1] at heH
                    simp only [List.head?_cons, Option.some.injEq] at heH
                    simp [List.dropLast_cons₂, heH]
          obtain ⟨nd0, hD, hDu⟩ := A.makedirs_shape_head (t := td)
            (x := e.1.dropLast) (d := d)
            (normPath_append_eq htdn (normalPath_dropLast heN))
            (by
              rcases hdlh with h | h
              · exact .inl h
              · exact .inr h) hcov
          have hdirsA' : (A.addEntry td e).dirs = A.dirs ++ nd0 := by
            rw [hA', FS.dirs_writeFile, hD]
          have hget : (normPath (td ++ e.1)).get? td.length = some d := by
            rw [hnp]
            have h2 : (td ++ e.1).get? td.length = e.1.get? 0 := by
              simp [List.get?_eq_getElem?, List.getElem?_append_right]
            have h3 : e.1.get? 0 = some d := by
              cases h1 : e.1 with
              | nil => exact absurd h1 heNE
              | cons a t =>
                  rw [h1] at heH
                  simpa using heH
            rw [h2, h3]
          have hfilesA' : (A.addEntry td e).files =
              ((normPath (td ++ e.1), c) ::
                nf0.filter (fun x => x.1 != normPath (td ++ e.1))) ++
                fsO.files := by
            rw [hA']
            show (normPath (td ++ e.1), c) ::
              (A.makedirs (td ++ e.1.dropLast)).files.filter
                (fun x => x.1 != normPath (td ++ e.1)) = _
            rw [FS.files_makedirs, hfe, List.filter_append]
            have hOfl : fsO.files.filter
                (fun x => x.1 != normPath (td ++ e.1)) = fsO.files := by
              refine List.filter_eq_self.mpr ?_
              intro x hx
              rw [bne_iff_ne]
              intro hEq
              rw [← hEq] at hnpu
              rw [hOf x hx] at hnpu
              exact Bool.false_ne_true hnpu
            rw [hOfl]
            rfl
          have hcov' : ∀ pre ∈ prefixesOf td, pre ∈ (A.addEntry td e).dirs := by
            intro pre hp
            rw [hdirsA']
            exact List.mem_append_left _ (hcov pre hp)
          have hfu' : ∀ x ∈ ((normPath (td ++ e.1), c) ::
              nf0.filter (fun x => x.1 != normPath (td ++ e.1))),
              underPath td x.1 = true ∧ x.1.get? td.length = some d := by
            intro x hx
            rcases List.mem_cons.mp hx with rfl | h
            · exact ⟨hnpu, hget⟩
            · exact hfu x (List.mem_of_mem_filter h)
          obtain ⟨nd1, nf1, h1, h2, h3, h4⟩ :=
            ih hesn' hheads' (A.addEntry td e) _ hcov' hfilesA' hfu'
          refine ⟨nd0 ++ nd1, nf1, ?_, ?_, ?_, h4⟩
          · rw [← hstep] at h1
            rw [h1, hdirsA', List.append_assoc]
          · intro q hq
            rcases List.mem_append.mp hq with h | h
            · exact hDu q h
            · exact h2 q h
          · rw [← hstep] at h3
            exact h3

lemma FS.dirs_subset_addEntries (td : List String)
    (es : List (List String × EntryKind)) :
    ∀ (A : FS) {q : List String}, q ∈ A.dirs → q ∈ (A.addEntries td es).dirs := by
  induction es with
  | nil => intro A q h; exact h
  | cons e es ih =>
      intro A q h
      have hstep : (A.addEntries td (e :: es)) =
          ((A.addEntry td e).addEntries td es) := by
        simp [FS.addEntries]
      rw [hstep]
      exact ih _ (A.dirs_subset_addEntry td e h)

lemma FS.mem_addEntries_dir (td : List String) {p : List String}
    {es : List (List String × EntryKind)}
    (hmem : (p, EntryKind.dir) ∈ es) (hnn : normPath (td ++ p) ≠ []) :
    ∀ (A : FS), normPath (td ++ p) ∈ (A.addEntries td es).dirs := by
  induction es with
  | nil => simp at hmem
  | cons e es ih =>
      intro A
      have hstep : (A.addEntries td (e :: es)) =
          ((A.addEntry td e).addEntries td es) := by
        simp [FS.addEntries]
      rw [hstep]
      rcases List.mem_cons.mp hmem with heq | hmem'
      · have h1 : normPath (td ++ p) ∈ (A.addEntry td e).dirs := by
          rw [← heq]
          unfold FS.addEntry
          exact A.self_mem_dirs_makedirs hnn
        exact FS.dirs_subset_addEntries td es _ h1
      · exact ih hmem' _

/-- After unpacking an archive whose entries all start with the single
top-level directory name `d` (with a directory entry for `d` itself), the
listing of the private temp directory is exactly `[d]`, and `d` is a
directory there. -/
lemma listdir_unpacked (env : Env) (fsA : FS)
    (es : List (List String × EntryKind)) (d : String)
    (htmp : ["tmp"] ∈ fsA.dirs)
    (htdn : normalComp env.tempdirName = true)
    (hfd : ∀ q ∈ fsA.dirs, underPath ["tmp", env.tempdirName] q = false)
    (hff : ∀ x ∈ fsA.files, underPath ["tmp", env.tempdirName] x.1 = false)
    (hesn : ∀ x ∈ es, normalPath x.1 = true)
    (hheads : ∀ x ∈ es, x.1.head? = some d)
    (hdmem : ([d], EntryKind.dir) ∈ es) :
    ((fsA.makedirs ["tmp", env.tempdirName]).addEntries
      ["tmp", env.tempdirName] es).listdir ["tmp", env.tempdirName] = [d] ∧
    ((fsA.makedirs ["tmp", env.tempdirName]).addEntries
      ["tmp", env.tempdirName] es).isDir
      (["tmp", env.tempdirName] ++ [d]) = true := by
  have hnptd : normPath ["tmp", env.tempdirName] = ["tmp", env.tempdirName] :=
    normPath_eq_self (td_normal htdn)
  have hdn : normalComp d = true := by
    have := hesn ([d], EntryKind.dir) hdmem
    simpa [normalPath] using this
  have hnpd : normPath (["tmp", env.tempdirName] ++ [d]) =
      ["tmp", env.tempdirName] ++ [d] :=
    normPath_append_eq (td_normal htdn) (normalPath_singleton hdn)
  obtain ⟨nd1, nf1, hD1, hD1u, hF1, hF1u⟩ :=
    FS.addEntries_shape_head ["tmp", env.tempdirName] fsA (d := d) es hff
      (td_normal htdn) hesn hheads
      (fsA.makedirs ["tmp", env.tempdirName]) []
      (by
        intro pre hp
        refine (fsA.makedirs_covers ["tmp", env.tempdirName]) pre ?_
        rw [hnptd]
        exact hp)
      (by rw [FS.files_makedirs, List.nil_append])
      (by intro x hx; simp at hx)
  have hmemd : (["tmp", env.tempdirName] ++ [d]) ∈
      ((fsA.makedirs ["tmp", env.tempdirName]).addEntries
        ["tmp", env.tempdirName] es).dirs := by
    have := FS.mem_addEntries_dir ["tmp", env.tempdirName] (p := [d]) hdmem
      (by rw [hnpd]; simp) (fsA.makedirs ["tmp", env.tempdirName])
    rw [hnpd] at this
    exact this
  constructor
  · unfold FS.listdir
    rw [hnptd]
    -- the mapped list contains only the name d, and contains it
    refine dedup_eq_singleton ?_ ?_
    · intro hnil
      have hd : d ∈ (((fsA.makedirs ["tmp", env.tempdirName]).addEntries
          ["tmp", env.tempdirName] es).dirs ++
          ((fsA.makedirs ["tmp", env.tempdirName]).addEntries
            ["tmp", env.tempdirName] es).files.map (fun e => e.1)).filterMap
          (fun q =>
            if underPath ["tmp", env.tempdirName] q &&
                decide ((["tmp", env.tempdirName] : List String).length < q.length)
            then q.get? (["tmp", env.tempdirName] : List String).length
            else none) := by
        refine List.mem_filterMap.mpr
          ⟨["tmp", env.tempdirName] ++ [d], List.mem_append_left _ hmemd, ?_⟩
        have hcond : (underPath ["tmp", env.tempdirName]
            (["tmp", env.tempdirName] ++ [d]) &&
            decide ((["tmp", env.tempdirName] : List String).length <
              (["tmp", env.tempdirName] ++ [d]).length)) = true := by
          rw [underPath_append]
          simp
        rw [if_pos hcond]
        simp [List.get?_eq_getElem?, List.getElem?_append_right]
      rw [hnil] at hd
      exact absurd hd (List.not_mem_nil d)
    · intro y hy
      obtain ⟨q, hq, hfq⟩ := List.mem_filterMap.mp hy
      rcases List.mem_append.mp hq with hq | hq
      · rw [hD1] at hq
        rcases List.mem_append.mp hq with hq | hq
        · -- directories of the makedirs step are never deep enough
          rcases FS.mem_dirs_makedirs (A := fsA) ["tmp", env.tempdirName] hq
            with hq' | hq'
          · rw [if_neg (by simp [hfd q hq'])] at hfq
            exact absurd hfq (by simp)
          · rw [hnptd] at hq'
            simp only [prefixesOf, List.mem_map, List.mem_range] at hq'
            obtain ⟨i, hi, hqe⟩ := hq'
            have hlen : q.length ≤ (["tmp", env.tempdirName] : List String).length := by
              rw [← hqe]
              simp only [List.length_take, List.length_cons]
              omega
            rw [if_neg (by
              intro hcontra
              simp only [Bool.and_eq_true, decide_eq_true_eq] at hcontra
              omega)] at hfq
            exact absurd hfq (by simp)
        · obtain ⟨hu, hg⟩ := hD1u q hq
          have hlen : (["tmp", env.tempdirName] : List String).length < q.length :=
            (List.get?_eq_some.mp hg).1
          rw [if_pos (by rw [hu]; simpa using hlen)] at hfq
          rw [hg] at hfq
          exact ((Option.some.injEq _ _).mp hfq).symm
      · obtain ⟨x, hx, rfl⟩ := List.mem_map.mp hq
        rw [hF1] at hx
        rcases List.mem_append.mp hx with hx | hx
        · obtain ⟨hu, hg⟩ := hF1u x hx
          have hlen : (["tmp", env.tempdirName] : List String).length < x.1.length :=
            (List.get?_eq_some.mp hg).1
          rw [if_pos (by rw [hu]; simpa using hlen)] at hfq
          rw [hg] at hfq
          exact ((Option.some.injEq _ _).mp hfq).symm
        · rw [if_neg (by simp [hff x hx])] at hfq
          exact absurd hfq (by simp)
  · simp only [FS.isDir, hnpd, List.elem_eq_mem, decide_eq_true_eq]
    exact hmemd

/-- C4: after unpacking, extraction fails with the structural
`BadParametersError` exactly when the listing of the private temp
directory is not exactly one entry that is a directory; and an archive
whose unpacked content is exactly one top-level directory with arbitrary
nested content always passes structural validation, returning the
generated staged name. -/
theorem c4_theorem (env : Env) (root : List String) (fsA : FS)
    (es : List (List String × EntryKind)) (d : String)
    (htmp : ["tmp"] ∈ fsA.dirs)
    (htdn : normalComp env.tempdirName = true)
    (hfd : ∀ q ∈ fsA.dirs, underPath ["tmp", env.tempdirName] q = false)
    (hff : ∀ x ∈ fsA.files, underPath ["tmp", env.tempdirName] x.1 = false)
    (hunp : env.unpackResult = .ok es)
    (hesn : ∀ x ∈ es, normalPath x.1 = true) :
    ((extract_file_to_file_server env root fsA).1 =
        .error (.badParameters MSG_STRUCTURAL) ↔
      ¬ ((((fsA.makedirs ["tmp", env.tempdirName]).addEntries
            ["tmp", env.tempdirName] es).listdir
              ["tmp", env.tempdirName]).length = 1 ∧
         ((fsA.makedirs ["tmp", env.tempdirName]).addEntries
            ["tmp", env.tempdirName] es).isDir
              (["tmp", env.tempdirName] ++
                [(((fsA.makedirs ["tmp", env.tempdirName]).addEntries
                  ["tmp", env.tempdirName] es).listdir
                    ["tmp", env.tempdirName]).headD ""]) = true)) ∧
    (specSingleTopDir es d →
      (extract_file_to_file_server env root fsA).1 =
        .ok (d ++ "-" ++ env.uuid)) := by
  constructor
  · by_cases hcond : (((((fsA.makedirs ["tmp", env.tempdirName]).addEntries
        ["tmp", env.tempdirName] es).listdir
          ["tmp", env.tempdirName]).length == 1) &&
        ((fsA.makedirs ["tmp", env.tempdirName]).addEntries
          ["tmp", env.tempdirName] es).isDir
            (["tmp", env.tempdirName] ++
              [(((fsA.makedirs ["tmp", env.tempdirName]).addEntries
                ["tmp", env.tempdirName] es).listdir
                  ["tmp", env.tempdirName]).headD ""])) = true
    · have hres1 : (extract_file_to_file_server env root fsA).1 =
          .ok ((((fsA.makedirs ["tmp", env.tempdirName]).addEntries
            ["tmp", env.tempdirName] es).listdir
              ["tmp", env.tempdirName]).headD "" ++ "-" ++ env.uuid) := by
        simp only [extract_file_to_file_server, hunp, hcond, if_true]
      constructor
      · intro h
        rw [hres1] at h
        exact absurd h (by simp)
      · intro h
        exfalso
        apply h
        simp only [Bool.and_eq_true, beq_iff_eq] at hcond
        exact ⟨hcond.1, hcond.2⟩
    · have hres1 : (extract_file_to_file_server env root fsA).1 =
          .error (.badParameters MSG_STRUCTURAL) := by
        simp only [extract_file_to_file_server, hunp, if_neg hcond]
      constructor
      · intro _ hcontra
        apply hcond
        simp only [Bool.and_eq_true, beq_iff_eq]
        exact ⟨hcontra.1, hcontra.2⟩
      · intro _
        exact hres1
  · rintro ⟨hdmem, hheads⟩
    obtain ⟨hl, hd⟩ := listdir_unpacked env fsA es d htmp htdn hfd hff hesn
      hheads hdmem
    have hcond : (((((fsA.makedirs ["tmp", env.tempdirName]).addEntries
        ["tmp", env.tempdirName] es).listdir
          ["tmp", env.tempdirName]).length == 1) &&
        ((fsA.makedirs ["tmp", env.tempdirName]).addEntries
          ["tmp", env.tempdirName] es).isDir
            (["tmp", env.tempdirName] ++
              [(((fsA.makedirs ["tmp", env.tempdirName]).addEntries
                ["tmp", env.tempdirName] es).listdir
                  ["tmp", env.tempdirName]).headD ""])) = true := by
      rw [hl]
      simpa using hd
    have hres1 : (extract_file_to_file_server env root fsA).1 =
        .ok ((((fsA.makedirs ["tmp", env.tempdirName]).addEntries
          ["tmp", env.tempdirName] es).listdir
            ["tmp", env.tempdirName]).headD "" ++ "-" ++ env.uuid) := by
      simp only [extract_file_to_file_server, hunp, hcond, if_true]
    rw [hl] at hres1
    simpa using hres1

/-- Witness for `c4_theorem`: the well-formed single-top-directory archive
passes structural validation with the generated staged name, and a
two-top-directory unpack makes the structural iff concrete. -/
theorem c4_witness :
    (extract_file_to_file_server envGood ["root"] fs0).1 =
      .ok ("app" ++ "-" ++ envGood.uuid) :=
  (c4_theorem envGood ["root"] fs0
      [(["app"], .dir), (["app", "blueprint.yaml"], .file "tosca")] "app"
      (by decide) (by decide) (by decide) (by decide) rfl (by decide)).2
    (by constructor <;> decide)
